import Mathlib

/-!
# ALSA adapters and the event throttler

A model of `include/adapters/alsa.hpp` (classes `alsa_ctl_interface` and
`alsa_mixer`) and of `include/utils/throttle.hpp` (class `event_throttler`),
followed by the properties established for them.

Conventions of the model

* The sound library is external. The state it keeps for one simple mixer
  element is the record `snd_mixer_elem`; the library calls used by the
  adapters are the functions `snd_mixer_selem_*` on that record: a write stores
  its value on every channel the element has, a read returns what is stored,
  and a read of a channel the element does not have fails and stores nothing.
  The results of the control calls are inputs (`ctl_open_results`,
  `ctl_wait_results`, `snd_strerror`).
* `float` is IEEE-754 binary32 with round-to-nearest-even, every operation
  rounded on its own; a finite `float` is the rational number it denotes, and
  the percentage passed to `set_volume` is a finite `float`. A product too
  large for a `float` only ever reaches the conversion to `long`, where it is
  out of range like the infinity it stands for.
* `long` is the 64-bit and `int` the 32-bit two's complement integer of
  x86-64: an addition of `long` wraps (`wrap_long`), and a conversion of a
  `float` that does not fit gives the least value of the integer type
  (`LONG_MIN`, `INT_MIN`), as it does for an infinite or undefined quotient.
  An integer division by zero is the one fault (`fault`).
* A C++ exception is the `Except.error` result.
* The clock of the throttler is an explicit argument `now`, in clock ticks, and
  the time window is a length in ticks.
-/

namespace lemonbuddy

/-! ## binary32 arithmetic -/

/-- Nearest integer, ties to the even one. -/
def round_half_even (q : ℚ) : Int :=
  if q - ⌊q⌋ < 1 / 2 then ⌊q⌋
  else if 1 / 2 < q - ⌊q⌋ then ⌊q⌋ + 1
  else if ⌊q⌋ % 2 = 0 then ⌊q⌋ else ⌊q⌋ + 1

/-- Exponent of the unit in the last place of a positive value: 24 significant
bits, least normal exponent `-126` (below it the spacing stays `2^-149`). -/
def f32_ulp_exp (x : ℚ) : Int := max (Int.log 2 x) (-126) - 23

/-- Rounding of a non-negative value to binary32. -/
def f32_mag (x : ℚ) : ℚ :=
  if x = 0 then 0
  else (round_half_even (x / (2 : ℚ) ^ f32_ulp_exp x) : ℚ) * (2 : ℚ) ^ f32_ulp_exp x

/-- Rounding to binary32 (sign and magnitude). -/
def f32 (x : ℚ) : ℚ := if x < 0 then -f32_mag (-x) else f32_mag x

/-- Conversion of an integer to `float`. -/
def int_to_float (n : Int) : ℚ := f32 (n : ℚ)

/-- Integer part of a `float`: the fraction is discarded. -/
def float_trunc (r : ℚ) : Int := if 0 ≤ r then ⌊r⌋ else ⌈r⌉

/-- Least `long`. -/
def LONG_MIN : Int := -(2 ^ 63)

/-- Least `int`. -/
def INT_MIN : Int := -(2 ^ 31)

/-- Conversion of a `float` to `long`: the integer part when it fits in 64
bits, `LONG_MIN` when it does not. -/
def float_to_long (r : ℚ) : Int :=
  if LONG_MIN ≤ float_trunc r ∧ float_trunc r < 2 ^ 63 then float_trunc r else LONG_MIN

/-- Conversion of a `float` to `int`: the integer part when it fits in 32
bits, `INT_MIN` when it does not. -/
def float_to_int (r : ℚ) : Int :=
  if INT_MIN ≤ float_trunc r ∧ float_trunc r < 2 ^ 31 then float_trunc r else INT_MIN

/-- Result of an addition of `long`: the sum reduced to 64 bits. -/
def wrap_long (x : Int) : Int := (x + 2 ^ 63) % 2 ^ 64 - 2 ^ 63

/-! ## errors -/

/-- The error classes of `alsa.hpp`, each carrying its message. -/
inductive alsa_exception where
  | alsa_ctl_interface_error (what : String)
  | alsa_mixer_error (what : String)
  deriving DecidableEq

/-- Function `throw_exception<T>(message, error_code)`: appends the native error
string, when there is one, and throws. -/
def throw_exception {α : Type} (snd_strerror : Int → Option String)
    (T : String → alsa_exception) (message : String) (error_code : Int) :
    Except alsa_exception α :=
  match snd_strerror error_code with
  | some snd_error => Except.error (T (message ++ (": " ++ snd_error)))
  | none => Except.error (T message)

/-! ## class `alsa_ctl_interface` -/

/-- Event type `SND_CTL_EVENT_ELEM` of the sound library. -/
def SND_CTL_EVENT_ELEM : Int := 0

/-- Mask bit `SND_CTL_EVENT_MASK_VALUE` of the sound library (`1 << 0`). -/
def SND_CTL_EVENT_MASK_VALUE : Nat := 1

/-- What the native calls of the constructor return. -/
structure ctl_open_results where
  snd_ctl_open : Int
  snd_ctl_elem_info : Int
  snd_hctl_open : Int
  snd_hctl_load : Int
  /-- `false` stands for the null pointer -/
  snd_hctl_find_elem : Bool
  snd_ctl_elem_id_get_numid : Nat
  snd_ctl_subscribe_events : Int

/-- Constructor `alsa_ctl_interface(int numid)`; `ALSA_SOUNDCARD` is the device
name of the build configuration. -/
def alsa_ctl_interface (snd_strerror : Int → Option String) (ALSA_SOUNDCARD : String)
    (native : ctl_open_results) : Except alsa_exception Unit :=
  if native.snd_ctl_open < 0 then
    throw_exception snd_strerror alsa_exception.alsa_ctl_interface_error
      ("Could not open control \x27" ++ ALSA_SOUNDCARD ++ "\x27") native.snd_ctl_open
  else if native.snd_ctl_elem_info < 0 then
    throw_exception snd_strerror alsa_exception.alsa_ctl_interface_error
      "Could not get control datal" native.snd_ctl_elem_info
  else if native.snd_hctl_open < 0 then
    throw_exception snd_strerror alsa_exception.alsa_ctl_interface_error
      "Failed to open hctl" native.snd_hctl_open
  else if native.snd_hctl_load < 0 then
    throw_exception snd_strerror alsa_exception.alsa_ctl_interface_error
      "Failed to load hctl" native.snd_hctl_load
  else if native.snd_hctl_find_elem = false then
    Except.error (alsa_exception.alsa_ctl_interface_error
      ("Could not find control with id " ++ toString native.snd_ctl_elem_id_get_numid))
  else if native.snd_ctl_subscribe_events < 0 then
    Except.error (alsa_exception.alsa_ctl_interface_error
      ("Could not subscribe to events: " ++ toString native.snd_ctl_elem_id_get_numid))
  else
    Except.ok ()

/-- What the native calls of `wait` return: the two return codes and the type
and mask found in the event buffer after the read. -/
structure ctl_wait_results where
  snd_ctl_wait : Int
  snd_ctl_read : Int
  snd_ctl_event_get_type : Int
  snd_ctl_event_elem_get_mask : Nat

/-- Method `alsa_ctl_interface::wait(int timeout)`; `native` gives the outcome of
the native calls for this timeout. -/
def alsa_ctl_interface.wait (snd_strerror : Int → Option String)
    (native : Int → ctl_wait_results) (timeout : Int) : Except alsa_exception Bool :=
  let r := native timeout
  if r.snd_ctl_wait < 0 then
    throw_exception snd_strerror alsa_exception.alsa_ctl_interface_error
      "Failed to wait for events" r.snd_ctl_wait
  else if r.snd_ctl_read < 0 then
    Except.ok false
  else if r.snd_ctl_event_get_type ≠ SND_CTL_EVENT_ELEM then
    Except.ok false
  else
    Except.ok (decide (r.snd_ctl_event_elem_get_mask &&& SND_CTL_EVENT_MASK_VALUE ≠ 0))

/-! ## the simple mixer element of the sound library -/

/-- Bound of the channel scan, `SND_MIXER_SCHN_LAST` of the sound library. -/
def SND_MIXER_SCHN_LAST : Nat := 31

/-- Channel id `SND_MIXER_SCHN_FRONT_LEFT` of the sound library. -/
def SND_MIXER_SCHN_FRONT_LEFT : Nat := 0

/-- State of one simple mixer element: the playback volume range, the playback
channels it has, and the raw volume and the on/off switch of each channel. -/
structure snd_mixer_elem where
  vol_min : Int
  vol_max : Int
  has_playback_channel : Nat → Bool
  volume : Nat → Int
  /-- `true` is on (audible), `false` is off -/
  switch : Nat → Bool

/-- Native range query: `(min, max)`. -/
def snd_mixer_selem_get_playback_volume_range (e : snd_mixer_elem) : Int × Int :=
  (e.vol_min, e.vol_max)

/-- Native channel test. -/
def snd_mixer_selem_has_playback_channel (e : snd_mixer_elem) (channel : Nat) : Bool :=
  e.has_playback_channel channel

/-- Native volume read of a channel the element has. -/
def snd_mixer_selem_get_playback_volume (e : snd_mixer_elem) (channel : Nat) : Int :=
  e.volume channel

/-- Native switch read: `1` for on and `0` for off; it fails, and stores nothing,
for a channel the element does not have. -/
def snd_mixer_selem_get_playback_switch (e : snd_mixer_elem) (channel : Nat) : Option Int :=
  if e.has_playback_channel channel then some (if e.switch channel then 1 else 0) else none

/-- Native volume write to every channel the element has. -/
def snd_mixer_selem_set_playback_volume_all (e : snd_mixer_elem) (value : Int) :
    snd_mixer_elem :=
  { e with volume := fun c => if e.has_playback_channel c then value else e.volume c }

/-- Native switch write to every channel the element has: non-zero is on. -/
def snd_mixer_selem_set_playback_switch_all (e : snd_mixer_elem) (value : Int) :
    snd_mixer_elem :=
  { e with switch := fun c => if e.has_playback_channel c then decide (value ≠ 0) else e.switch c }

/-! ## class `alsa_mixer` -/

/-- The way in which `get_volume` can fail: the division of `long` by zero. -/
inductive fault where
  | integer_division_by_zero
  deriving DecidableEq

namespace alsa_mixer

/-- Loop of `get_volume` over the channel ids in `ids`, on `(chan_n, vol_total)`. -/
def get_volume_loop (e : snd_mixer_elem) : List Nat → Int × Int → Int × Int
  | [], acc => acc
  | i :: ids, (chan_n, vol_total) =>
    if snd_mixer_selem_has_playback_channel e i then
      get_volume_loop e ids
        (chan_n + 1, wrap_long (vol_total + snd_mixer_selem_get_playback_volume e i))
    else
      get_volume_loop e ids (chan_n, vol_total)

/-- Method `alsa_mixer::get_volume()`. The returned expression is
`100.0f * (vol_total / chan_n) / vol_max + 0.5f`, converted to `int`; with
`vol_max = 0` the quotient is infinite or undefined and the conversion gives
`INT_MIN`. -/
def get_volume (e : snd_mixer_elem) : Except fault Int :=
  let vol_max := (snd_mixer_selem_get_playback_volume_range e).2
  let r := get_volume_loop e (List.range SND_MIXER_SCHN_LAST) (0, 0)
  let chan_n := r.1
  let vol_total := r.2
  if chan_n = 0 then Except.error fault.integer_division_by_zero
  else if vol_max = 0 then Except.ok INT_MIN
  else
    Except.ok (float_to_int
      (f32 (f32 (f32 (100 * int_to_float (Int.tdiv vol_total chan_n)) / int_to_float vol_max)
        + 1 / 2)))

/-- Loop of `is_muted` over the channel ids in `ids`; `state` is the local
variable, kept when the native read fails. -/
def is_muted_loop (e : snd_mixer_elem) : List Nat → Int → Bool
  | [], _ => false
  | i :: ids, state =>
    if snd_mixer_selem_has_playback_channel e i then
      let state1 :=
        (snd_mixer_selem_get_playback_switch e SND_MIXER_SCHN_FRONT_LEFT).getD state
      if state1 = 0 then true else is_muted_loop e ids state1
    else
      is_muted_loop e ids state

/-- Method `alsa_mixer::is_muted()`. -/
def is_muted (e : snd_mixer_elem) : Bool :=
  is_muted_loop e (List.range SND_MIXER_SCHN_LAST) 0

/-- Method `alsa_mixer::set_volume(float percentage)`; the argument is converted
to `float` on entry and the computed value to `long` at the native call. -/
def set_volume (e : snd_mixer_elem) (percentage : ℚ) : snd_mixer_elem :=
  if is_muted e then e
  else
    let vol_max := (snd_mixer_selem_get_playback_volume_range e).2
    snd_mixer_selem_set_playback_volume_all e
      (float_to_long (f32 (f32 (int_to_float vol_max * f32 percentage) / int_to_float 100)))

/-- Method `alsa_mixer::set_mute(bool mode)`. -/
def set_mute (e : snd_mixer_elem) (mode : Bool) : snd_mixer_elem :=
  snd_mixer_selem_set_playback_switch_all e (if mode then 1 else 0)

/-- Method `alsa_mixer::toggle_mute()`. The local `state` is not initialised in
the source: `state0` is the value it holds when the native read fails. -/
def toggle_mute (e : snd_mixer_elem) (state0 : Int) : snd_mixer_elem :=
  let state := (snd_mixer_selem_get_playback_switch e SND_MIXER_SCHN_FRONT_LEFT).getD state0
  snd_mixer_selem_set_playback_switch_all e (if state = 0 then 1 else 0)

/-- Channel ids visited by the scans of `get_volume` and `is_muted`. -/
def playback_channels (e : snd_mixer_elem) : List Nat :=
  (List.range SND_MIXER_SCHN_LAST).filter e.has_playback_channel

/-- Sum of the raw volumes of the playback channels. -/
def volume_sum (e : snd_mixer_elem) : Int :=
  ((playback_channels e).map e.volume).sum

/-- Percentage as the specification words it: `round(100 * (sum / channelCount) / max)`
with the integer channel average. -/
def spec_percentage (sum : Int) (channelCount : Int) (max : Int) : Int :=
  round ((100 * ((sum / channelCount : Int) : ℚ)) / (max : ℚ))

/-- An element with the single channel front-left. -/
def single_channel (vol_min vol_max volume : Int) (switch : Bool) : snd_mixer_elem :=
  { vol_min := vol_min, vol_max := vol_max,
    has_playback_channel := fun c => c == SND_MIXER_SCHN_FRONT_LEFT,
    volume := fun _ => volume, switch := fun _ => switch }

/-- An element with the channels `0, ..., count - 1`, all at one volume. -/
def front_channels (count : Nat) (vol_min vol_max volume : Int) (switch : Bool) :
    snd_mixer_elem :=
  { vol_min := vol_min, vol_max := vol_max,
    has_playback_channel := fun c => decide (c < count),
    volume := fun _ => volume, switch := fun _ => switch }

/-- An element without playback channels (a capture-only control). -/
def no_channel (vol_min vol_max : Int) : snd_mixer_elem :=
  { vol_min := vol_min, vol_max := vol_max,
    has_playback_channel := fun _ => false,
    volume := fun _ => 0, switch := fun _ => true }

end alsa_mixer

/-! ## `throttle_util` -/

namespace throttle_util

/-- Reading of `timepoint_clock`, in ticks. -/
abbrev timepoint := Int

/-- Length of the window, in ticks (a `double` duration in the source). -/
abbrev timewindow := ℚ

abbrev queue := List timepoint

abbrev limit := Nat

namespace strategy

/-- Strategy `try_once_or_leave_yolo`: the verdict and the queue afterwards. -/
def try_once_or_leave_yolo (now : timepoint) (q : queue) (l : limit) (_t : timewindow) :
    Bool × queue :=
  if q.length ≥ l then (false, q) else (true, q ++ [now])

end strategy

/-- Class `event_throttler`. -/
structure event_throttler where
  m_queue : queue
  m_limit : limit
  m_timewindow : timewindow

/-- Constructor `event_throttler(int limit, timewindow)`: the limit is converted
to `size_t`. -/
def event_throttler.construct (limit : Int) (timewindow : timewindow) : event_throttler :=
  { m_queue := [], m_limit := (limit % 2 ^ 64).toNat, m_timewindow := timewindow }

/-- Loop of `expire_timestamps` on the queue. -/
def expire_loop (now : timepoint) (w : timewindow) : queue → queue
  | [] => []
  | front :: rest =>
    if ((now - front : Int) : ℚ) < w then front :: rest else expire_loop now w rest

/-- Method `event_throttler::expire_timestamps()`. -/
def event_throttler.expire_timestamps (t : event_throttler) (now : timepoint) :
    event_throttler :=
  { t with m_queue := expire_loop now t.m_timewindow t.m_queue }

/-- Method `event_throttler::passthrough()` with the default strategy. -/
def event_throttler.passthrough (t : event_throttler) (now : timepoint) :
    Bool × event_throttler :=
  let t1 := t.expire_timestamps now
  let r := strategy.try_once_or_leave_yolo now t1.m_queue t1.m_limit t1.m_timewindow
  (r.1, { t1 with m_queue := r.2 })

/-- Queue without its leading timestamps that are at least `w` old at `now`. -/
def drop_expired (now : timepoint) (w : timewindow) (q : queue) : queue :=
  q.dropWhile (fun ts => decide (w ≤ ((now - ts : Int) : ℚ)))

/-- Membership of the window of length `w` that starts at `s`. -/
def in_window (s : timepoint) (w : timewindow) (a : timepoint) : Bool :=
  decide (s ≤ a ∧ ((a - s : Int) : ℚ) < w)

/-- Throttler after the calls of `passthrough` at the clock readings `nows`. -/
def run (t : event_throttler) : List timepoint → event_throttler
  | [] => t
  | now :: nows => run (t.passthrough now).2 nows

/-- Clock readings of the calls among `nows` that were let through. -/
def admitted (t : event_throttler) : List timepoint → List timepoint
  | [] => []
  | now :: nows =>
    if (t.passthrough now).1 then now :: admitted (t.passthrough now).2 nows
    else admitted (t.passthrough now).2 nows

end throttle_util

end lemonbuddy

/-! # Properties -/

namespace lemonbuddy

/-! ## binary32 rounding: monotone, and the identity on 24-bit values -/

theorem round_half_even_ge_floor (q : ℚ) : ⌊q⌋ ≤ round_half_even q := by
  unfold round_half_even; split_ifs <;> omega

theorem round_half_even_le_floor_succ (q : ℚ) : round_half_even q ≤ ⌊q⌋ + 1 := by
  unfold round_half_even; split_ifs <;> omega

theorem round_half_even_intCast (n : Int) : round_half_even (n : ℚ) = n := by
  unfold round_half_even; simp

theorem round_half_even_mono {a b : ℚ} (h : a ≤ b) : round_half_even a ≤ round_half_even b := by
  have hf : ⌊a⌋ ≤ ⌊b⌋ := Int.floor_mono h
  rcases lt_or_eq_of_le hf with hlt | heq
  · have h1 := round_half_even_le_floor_succ a
    have h2 := round_half_even_ge_floor b
    omega
  · unfold round_half_even
    rw [← heq]
    have hab : a - ⌊a⌋ ≤ b - ⌊a⌋ := by linarith
    split_ifs <;> first | omega | (exfalso; linarith)

theorem f32_ulp_exp_mono {a b : ℚ} (ha : 0 < a) (h : a ≤ b) : f32_ulp_exp a ≤ f32_ulp_exp b := by
  unfold f32_ulp_exp
  have := Int.log_mono_right (b := 2) ha h
  omega

theorem two_zpow_pos (e : Int) : (0 : ℚ) < (2 : ℚ) ^ e := zpow_pos (by norm_num) e

theorem f32_mag_nonneg {x : ℚ} (hx : 0 ≤ x) : 0 ≤ f32_mag x := by
  unfold f32_mag
  split_ifs with h0
  · exact le_refl 0
  · apply mul_nonneg _ (two_zpow_pos _).le
    have : 0 ≤ x / (2 : ℚ) ^ f32_ulp_exp x := div_nonneg hx (two_zpow_pos _).le
    have h1 : (0 : Int) ≤ ⌊x / (2 : ℚ) ^ f32_ulp_exp x⌋ := Int.floor_nonneg.mpr this
    have h2 := round_half_even_ge_floor (x / (2 : ℚ) ^ f32_ulp_exp x)
    exact_mod_cast le_trans h1 h2

theorem log2_lt_of_lt_zpow {x : ℚ} (hx : 0 < x) {k : Int} (h : x < (2 : ℚ) ^ k) : Int.log 2 x < k := by
  have := (Int.lt_zpow_iff_log_lt (R := ℚ) (b := 2) (by norm_num) (x := k) hx).mp (by simpa using h)
  exact this

theorem zpow_log2_le {x : ℚ} (hx : 0 < x) : (2 : ℚ) ^ (Int.log 2 x) ≤ x := by
  simpa using Int.zpow_log_le_self (R := ℚ) (b := 2) (by norm_num) hx

theorem lt_zpow_log2_succ (x : ℚ) : x < (2 : ℚ) ^ (Int.log 2 x + 1) := by
  simpa using Int.lt_zpow_succ_log_self (R := ℚ) (b := 2) (by norm_num) x

/-- A positive value is below `2^24` units in the last place. -/
theorem f32_mag_le_top {x : ℚ} (hx : 0 < x) : f32_mag x ≤ (2 : ℚ) ^ (f32_ulp_exp x + 24) := by
  have hne : x ≠ 0 := ne_of_gt hx
  have hp := two_zpow_pos (f32_ulp_exp x)
  have hlt : x ≤ (2 : ℚ) ^ (f32_ulp_exp x + 24) := by
    refine le_trans (lt_zpow_log2_succ x).le ?_
    apply zpow_le_zpow_right₀ (by norm_num)
    unfold f32_ulp_exp; omega
  have hq : x / (2 : ℚ) ^ f32_ulp_exp x ≤ ((2 ^ 24 : Int) : ℚ) := by
    rw [div_le_iff₀ hp]
    rw [zpow_add₀ (by norm_num)] at hlt
    push_cast
    linarith [hlt]
  have hr := round_half_even_mono hq
  rw [round_half_even_intCast] at hr
  have hr' : (round_half_even (x / (2 : ℚ) ^ f32_ulp_exp x) : ℚ) ≤ (2 : ℚ) ^ (24 : Int) := by
    have : ((2 ^ 24 : Int) : ℚ) = (2 : ℚ) ^ (24 : Int) := by norm_num
    rw [← this]; exact_mod_cast hr
  unfold f32_mag
  rw [if_neg hne, zpow_add₀ (by norm_num), mul_comm ((2 : ℚ) ^ f32_ulp_exp x)]
  exact mul_le_mul_of_nonneg_right hr' hp.le

/-- A normal positive value is at least `2^23` units in the last place. -/
theorem f32_mag_ge_bot {x : ℚ} (hx : 0 < x) (hn : -149 < f32_ulp_exp x) :
    (2 : ℚ) ^ (f32_ulp_exp x + 23) ≤ f32_mag x := by
  have hne : x ≠ 0 := ne_of_gt hx
  have hp := two_zpow_pos (f32_ulp_exp x)
  have hlog : f32_ulp_exp x + 23 = Int.log 2 x := by
    unfold f32_ulp_exp at hn ⊢; omega
  have hge : (2 : ℚ) ^ (f32_ulp_exp x + 23) ≤ x := by
    rw [hlog]; exact zpow_log2_le hx
  have hq : ((2 ^ 23 : Int) : ℚ) ≤ x / (2 : ℚ) ^ f32_ulp_exp x := by
    rw [le_div_iff₀ hp]
    rw [zpow_add₀ (by norm_num)] at hge
    push_cast
    linarith [hge]
  have hr := round_half_even_mono hq
  rw [round_half_even_intCast] at hr
  have hr' : (2 : ℚ) ^ (23 : Int) ≤ (round_half_even (x / (2 : ℚ) ^ f32_ulp_exp x) : ℚ) := by
    have : ((2 ^ 23 : Int) : ℚ) = (2 : ℚ) ^ (23 : Int) := by norm_num
    rw [← this]; exact_mod_cast hr
  unfold f32_mag
  rw [if_neg hne, zpow_add₀ (by norm_num), mul_comm ((2 : ℚ) ^ f32_ulp_exp x)]
  exact mul_le_mul_of_nonneg_right hr' hp.le

theorem f32_ulp_exp_ge (x : ℚ) : -149 ≤ f32_ulp_exp x := by
  unfold f32_ulp_exp; omega

theorem f32_mag_mono {x y : ℚ} (hx : 0 ≤ x) (h : x ≤ y) : f32_mag x ≤ f32_mag y := by
  rcases eq_or_lt_of_le hx with h0 | hpos
  · rw [← h0]
    have : f32_mag 0 = 0 := by simp [f32_mag]
    rw [this]; exact f32_mag_nonneg (le_trans hx h)
  · have hy : 0 < y := lt_of_lt_of_le hpos h
    have he := f32_ulp_exp_mono hpos h
    rcases eq_or_lt_of_le he with heq | hlt
    · unfold f32_mag
      rw [if_neg (ne_of_gt hpos), if_neg (ne_of_gt hy), ← heq]
      have hp := two_zpow_pos (f32_ulp_exp x)
      apply mul_le_mul_of_nonneg_right _ hp.le
      have : x / (2 : ℚ) ^ f32_ulp_exp x ≤ y / (2 : ℚ) ^ f32_ulp_exp x :=
        div_le_div_of_nonneg_right h hp.le
      exact_mod_cast round_half_even_mono this
    · have h1 := f32_mag_le_top hpos
      have h2 := f32_mag_ge_bot hy (by have := f32_ulp_exp_ge x; omega)
      have h3 : (2 : ℚ) ^ (f32_ulp_exp x + 24) ≤ (2 : ℚ) ^ (f32_ulp_exp y + 23) :=
        zpow_le_zpow_right₀ (by norm_num) (by omega)
      linarith

theorem f32_mono {x y : ℚ} (h : x ≤ y) : f32 x ≤ f32 y := by
  unfold f32
  split_ifs with hx hy hy
  · have := f32_mag_mono (x := -y) (y := -x) (by linarith) (by linarith)
    linarith
  · have h1 := f32_mag_nonneg (x := -x) (by linarith)
    have h2 := f32_mag_nonneg (x := y) (by linarith)
    linarith
  · exfalso; linarith
  · exact f32_mag_mono (by linarith) h

/-- Values `m * 2^k` with fewer than 24 significant bits are fixed by rounding. -/
theorem f32_mag_grid (m : Nat) (k : Int) (hm : m < 2 ^ 24) (hk : -149 ≤ k) :
    f32_mag ((m : ℚ) * (2 : ℚ) ^ k) = (m : ℚ) * (2 : ℚ) ^ k := by
  rcases Nat.eq_zero_or_pos m with h0 | hpos
  · subst h0; simp [f32_mag]
  · have hk2 := two_zpow_pos k
    have hx : 0 < (m : ℚ) * (2 : ℚ) ^ k := mul_pos (by exact_mod_cast hpos) hk2
    have hlt : (m : ℚ) * (2 : ℚ) ^ k < (2 : ℚ) ^ (24 + k) := by
      rw [zpow_add₀ (by norm_num)]
      apply mul_lt_mul_of_pos_right _ hk2
      have h24 : (2 : ℚ) ^ (24 : Int) = 16777216 := by norm_num
      have : (m : ℚ) < 16777216 := by exact_mod_cast hm
      rw [h24]; exact this
    have hlog := log2_lt_of_lt_zpow hx hlt
    have he : f32_ulp_exp ((m : ℚ) * (2 : ℚ) ^ k) ≤ k := by
      unfold f32_ulp_exp; omega
    obtain ⟨n, hn⟩ := Int.eq_ofNat_of_zero_le (sub_nonneg.mpr he)
    have hk' : k = f32_ulp_exp ((m : ℚ) * (2 : ℚ) ^ k) + n := by omega
    have hq : (m : ℚ) * (2 : ℚ) ^ k / (2 : ℚ) ^ f32_ulp_exp ((m : ℚ) * (2 : ℚ) ^ k)
        = (((m * 2 ^ n : Nat) : Int) : ℚ) := by
      rw [div_eq_iff (ne_of_gt (two_zpow_pos _))]
      nth_rewrite 1 [hk']
      rw [zpow_add₀ (by norm_num), zpow_natCast]
      push_cast; ring
    unfold f32_mag
    rw [if_neg (ne_of_gt hx), hq, round_half_even_intCast, ← hq]
    exact div_mul_cancel₀ _ (ne_of_gt (two_zpow_pos _))

theorem f32_grid (m : Int) (k : Int) (hm : |m| < 2 ^ 24) (hk : -149 ≤ k) :
    f32 ((m : ℚ) * (2 : ℚ) ^ k) = (m : ℚ) * (2 : ℚ) ^ k := by
  have hk2 := two_zpow_pos k
  unfold f32
  split_ifs with hneg
  · have hm0 : m < 0 := by
      by_contra hc
      push_neg at hc
      have : (0 : ℚ) ≤ (m : ℚ) * (2 : ℚ) ^ k := mul_nonneg (by exact_mod_cast hc) hk2.le
      linarith
    have hnat : ((m.natAbs : Nat) : ℚ) = -(m : ℚ) := by
      have : ((m.natAbs : Nat) : Int) = -m := by omega
      rw [← Int.cast_natCast, this, Int.cast_neg]
    have := f32_mag_grid m.natAbs k (by rw [abs_lt] at hm; omega) hk
    rw [hnat] at this
    rw [show -((m : ℚ) * (2 : ℚ) ^ k) = -(m : ℚ) * (2 : ℚ) ^ k by ring, this]
    ring
  · have hm0 : 0 ≤ m := by
      by_contra hc
      push_neg at hc
      have : (m : ℚ) * (2 : ℚ) ^ k < 0 := mul_neg_of_neg_of_pos (by exact_mod_cast hc) hk2
      exact hneg this
    have hnat : ((m.natAbs : Nat) : ℚ) = (m : ℚ) := by
      have : ((m.natAbs : Nat) : Int) = m := by omega
      rw [← Int.cast_natCast, this]
    have := f32_mag_grid m.natAbs k (by rw [abs_lt] at hm; omega) hk
    rw [hnat] at this
    exact this

theorem f32_intCast (m : Int) (hm : |m| < 2 ^ 24) : f32 (m : ℚ) = m := by
  have := f32_grid m 0 hm (by norm_num)
  simpa using this

/-- Form of `f32_grid` for a value given with its decomposition. -/
theorem f32_fix {x : ℚ} (m k : Int) (hx : x = (m : ℚ) * (2 : ℚ) ^ k) (hm : |m| < 2 ^ 24)
    (hk : -149 ≤ k) : f32 x = x := by
  rw [hx]; exact f32_grid m k hm hk

theorem int_to_float_exact (m : Int) (hm : |m| < 2 ^ 24) : int_to_float m = m :=
  f32_intCast m hm

theorem float_trunc_eq {r : ℚ} {k : Int} (h0 : 0 ≤ k) (h1 : (k : ℚ) ≤ r) (h2 : r < k + 1) :
    float_trunc r = k := by
  have hr : (0 : ℚ) ≤ r := le_trans (by exact_mod_cast h0) h1
  unfold float_trunc
  rw [if_pos hr]
  exact Int.floor_eq_iff.mpr ⟨h1, h2⟩

theorem float_to_int_eq {r : ℚ} {k : Int} (h0 : 0 ≤ k) (hk : k < 2 ^ 31) (h1 : (k : ℚ) ≤ r)
    (h2 : r < k + 1) : float_to_int r = k := by
  unfold float_to_int INT_MIN
  rw [float_trunc_eq h0 h1 h2, if_pos ⟨by omega, hk⟩]

theorem float_to_long_eq {r : ℚ} {k : Int} (h0 : 0 ≤ k) (hk : k < 2 ^ 63) (h1 : (k : ℚ) ≤ r)
    (h2 : r < k + 1) : float_to_long r = k := by
  unfold float_to_long LONG_MIN
  rw [float_trunc_eq h0 h1 h2, if_pos ⟨by omega, hk⟩]

theorem wrap_long_eq {x : Int} (h0 : -(2 ^ 63) ≤ x) (h1 : x < 2 ^ 63) : wrap_long x = x := by
  unfold wrap_long
  rw [Int.emod_eq_of_lt (by omega) (by omega)]
  omega

/-! ## evaluation of the rounding at a value between two neighbours -/

theorem log2_eq {x : ℚ} {E : Int} (h1 : (2 : ℚ) ^ E ≤ x) (h2 : x < (2 : ℚ) ^ (E + 1)) :
    Int.log 2 x = E := by
  have hx : 0 < x := lt_of_lt_of_le (two_zpow_pos E) h1
  have ha : E ≤ Int.log 2 x :=
    (Int.zpow_le_iff_le_log (R := ℚ) (b := 2) (by norm_num) (x := E) hx).mp (by simpa using h1)
  have hb : Int.log 2 x < E + 1 := log2_lt_of_lt_zpow hx h2
  omega

theorem round_half_even_eq {q : ℚ} {n : Int} (h1 : (n : ℚ) - 1 / 2 < q)
    (h2 : q < (n : ℚ) + 1 / 2) : round_half_even q = n := by
  rcases le_or_lt (n : ℚ) q with h | h
  · have hf : ⌊q⌋ = n := Int.floor_eq_iff.mpr ⟨h, by linarith⟩
    unfold round_half_even
    rw [hf, if_pos (by linarith)]
  · have hf : ⌊q⌋ = n - 1 := Int.floor_eq_iff.mpr ⟨by push_cast; linarith, by push_cast; linarith⟩
    unfold round_half_even
    rw [hf, if_neg (by push_cast; linarith), if_pos (by push_cast; linarith)]
    ring

/-- Rounding of a positive normal value that lies strictly within half a unit
of `n` units in the last place. -/
theorem f32_eq_of_near (x : ℚ) (E n : Int) (hE : -126 ≤ E) (h1 : (2 : ℚ) ^ E ≤ x)
    (h2 : x < (2 : ℚ) ^ (E + 1))
    (hn1 : ((n : ℚ) - 1 / 2) * (2 : ℚ) ^ (E - 23) < x)
    (hn2 : x < ((n : ℚ) + 1 / 2) * (2 : ℚ) ^ (E - 23)) :
    f32 x = (n : ℚ) * (2 : ℚ) ^ (E - 23) := by
  have hx : 0 < x := lt_of_lt_of_le (two_zpow_pos E) h1
  have hu : f32_ulp_exp x = E - 23 := by
    unfold f32_ulp_exp; rw [log2_eq h1 h2]; omega
  have hp := two_zpow_pos (E - 23)
  unfold f32 f32_mag
  rw [if_neg (not_lt.mpr hx.le), if_neg (ne_of_gt hx), hu]
  rw [round_half_even_eq (n := n) (by rw [lt_div_iff₀ hp]; exact hn1)
    (by rw [div_lt_iff₀ hp]; exact hn2)]

theorem float_to_long_f32_between (y : ℚ) (k : Int) (hk0 : 0 ≤ k) (hk : k ≤ 65536)
    (h1 : (k : ℚ) ≤ y) (h2 : y ≤ (k : ℚ) + 1 - 1 / 128) : float_to_long (f32 y) = k := by
  have hlo : f32 (k : ℚ) = (k : ℚ) := f32_intCast k (by rw [abs_lt]; constructor <;> omega)
  have hhi : f32 ((k : ℚ) + 1 - 1 / 128) = (k : ℚ) + 1 - 1 / 128 := by
    apply f32_fix ((k + 1) * 128 - 1) (-7) (by push_cast; norm_num; ring)
      (by rw [abs_lt]; constructor <;> omega) (by norm_num)
  have h3 : (k : ℚ) ≤ f32 y := by rw [← hlo]; exact f32_mono h1
  have h4 : f32 y ≤ (k : ℚ) + 1 - 1 / 128 := by rw [← hhi]; exact f32_mono h2
  exact float_to_long_eq hk0 (by omega) h3 (by linarith)


/-! ## relative error of the rounding -/

theorem round_half_even_near (q : ℚ) :
    q - 1 / 2 ≤ (round_half_even q : ℚ) ∧ (round_half_even q : ℚ) ≤ q + 1 / 2 := by
  have h1 : (⌊q⌋ : ℚ) ≤ q := Int.floor_le q
  have h2 : q < (⌊q⌋ : ℚ) + 1 := Int.lt_floor_add_one q
  unfold round_half_even
  split_ifs with ha hb hc
  · constructor <;> linarith
  · push_cast; constructor <;> linarith
  · constructor <;> linarith
  · push_cast; constructor <;> linarith

/-- A normal value moves by at most `2^-24` of itself. -/
theorem f32_rel {x : ℚ} (hx : 1 / 2 ≤ x) :
    x * (1 - 1 / 16777216) ≤ f32 x ∧ f32 x ≤ x * (1 + 1 / 16777216) := by
  have hpos : 0 < x := by linarith
  have hlog : -1 ≤ Int.log 2 x := by
    have := (Int.zpow_le_iff_le_log (R := ℚ) (b := 2) (by norm_num) (x := -1) hpos).mp
      (by norm_num; linarith)
    exact this
  have he : f32_ulp_exp x = Int.log 2 x - 23 := by
    unfold f32_ulp_exp; omega
  have hp := two_zpow_pos (f32_ulp_exp x)
  have hle : (2 : ℚ) ^ f32_ulp_exp x * 8388608 ≤ x := by
    have h1 := zpow_log2_le hpos
    have h2 : (2 : ℚ) ^ (Int.log 2 x) = (2 : ℚ) ^ f32_ulp_exp x * (2 : ℚ) ^ (23 : Int) := by
      rw [← zpow_add₀ (by norm_num)]; congr 1; omega
    rw [h2] at h1
    norm_num at h1
    linarith
  have hq : x / (2 : ℚ) ^ f32_ulp_exp x * (2 : ℚ) ^ f32_ulp_exp x = x :=
    div_mul_cancel₀ _ (ne_of_gt hp)
  obtain ⟨hr1, hr2⟩ := round_half_even_near (x / (2 : ℚ) ^ f32_ulp_exp x)
  have hm1 := mul_le_mul_of_nonneg_right hr1 hp.le
  have hm2 := mul_le_mul_of_nonneg_right hr2 hp.le
  rw [sub_mul, hq] at hm1
  rw [add_mul, hq] at hm2
  unfold f32 f32_mag
  rw [if_neg (not_lt.mpr hpos.le), if_neg (ne_of_gt hpos)]
  constructor <;> linarith

theorem f32_zero : f32 0 = 0 := by
  simp [f32, f32_mag]

/-- A value of the binade `[2^E, 2^(E+1))` strictly below the midpoint above `n`
units in the last place does not round above `n` units. -/
theorem f32_le_of_lt_mid (x : ℚ) (E n : Int) (hE : -126 ≤ E) (h1 : (2 : ℚ) ^ E ≤ x)
    (h2 : x < (2 : ℚ) ^ (E + 1)) (hn : x < ((n : ℚ) + 1 / 2) * (2 : ℚ) ^ (E - 23)) :
    f32 x ≤ (n : ℚ) * (2 : ℚ) ^ (E - 23) := by
  have hx : 0 < x := lt_of_lt_of_le (two_zpow_pos E) h1
  have hu : f32_ulp_exp x = E - 23 := by
    unfold f32_ulp_exp; rw [log2_eq h1 h2]; omega
  have hp := two_zpow_pos (E - 23)
  have hq : x / (2 : ℚ) ^ (E - 23) < (n : ℚ) + 1 / 2 := by
    rw [div_lt_iff₀ hp]; exact hn
  have hr := (round_half_even_near (x / (2 : ℚ) ^ (E - 23))).2
  have hlt : (round_half_even (x / (2 : ℚ) ^ (E - 23)) : ℚ) < ((n + 1 : Int) : ℚ) := by
    push_cast; linarith
  have hle : round_half_even (x / (2 : ℚ) ^ (E - 23)) ≤ n := by
    have : round_half_even (x / (2 : ℚ) ^ (E - 23)) < n + 1 := by exact_mod_cast hlt
    omega
  unfold f32 f32_mag
  rw [if_neg (not_lt.mpr hx.le), if_neg (ne_of_gt hx), hu]
  exact mul_le_mul_of_nonneg_right (by exact_mod_cast hle) hp.le

/-- The expression returned by `get_volume`, for an average `a` within a range
maximum `M ≤ 131072`: the rounded percentage, with no rounding error. -/
theorem percentage_expr_exact (a M : Int) (ha : 0 ≤ a) (haM : a ≤ M) (hM : 0 < M)
    (hM2 : M ≤ 131072) :
    float_to_int (f32 (f32 (f32 (100 * int_to_float a) / int_to_float M) + 1 / 2))
      = round ((100 * (a : ℚ)) / (M : ℚ)) := by
  have hMq : (0 : ℚ) < (M : ℚ) := by exact_mod_cast hM
  have haq : (0 : ℚ) ≤ (a : ℚ) := by exact_mod_cast ha
  have haMq : (a : ℚ) ≤ (M : ℚ) := by exact_mod_cast haM
  have hM2q : (M : ℚ) ≤ 131072 := by exact_mod_cast hM2
  rw [int_to_float_exact a (by rw [abs_lt]; constructor <;> omega),
    int_to_float_exact M (by rw [abs_lt]; constructor <;> omega)]
  have h100 : f32 (100 * (a : ℚ)) = 100 * (a : ℚ) := by
    apply f32_fix (100 * a) 0 (by push_cast; simp) (by rw [abs_lt]; constructor <;> omega)
      (by norm_num)
  rw [h100, round_eq]
  set x : ℚ := 100 * (a : ℚ) / (M : ℚ) with hx
  set k : Int := ⌊x + 1 / 2⌋ with hk
  have hx0 : 0 ≤ x := div_nonneg (by linarith) hMq.le
  have hx100 : x ≤ 100 := by
    rw [hx, div_le_iff₀ hMq]; linarith
  have hk1 : (k : ℚ) ≤ x + 1 / 2 := Int.floor_le _
  have hk2 : x + 1 / 2 < (k : ℚ) + 1 := Int.lt_floor_add_one _
  have hk0 : 0 ≤ k := Int.floor_nonneg.mpr (by linarith)
  have hk100 : k ≤ 100 := by
    have : (k : ℚ) < 101 := by linarith
    have : k < 101 := by exact_mod_cast this
    omega
  have hk0q : (0 : ℚ) ≤ (k : ℚ) := by exact_mod_cast hk0
  have hk100q : (k : ℚ) ≤ 100 := by exact_mod_cast hk100
  -- the exact percentage stays strictly below the midpoint under the next half-integer
  have hgap : x < (k : ℚ) + 1 / 2 - 1 / 262144 := by
    have h1 : 100 * (a : ℚ) = x * (M : ℚ) := by
      rw [hx, div_mul_cancel₀ _ (ne_of_gt hMq)]
    have h2 : (200 * a + M : ℚ) < 2 * (M : ℚ) * ((k : ℚ) + 1) := by nlinarith
    have h3 : 200 * a + M < 2 * M * (k + 1) := by exact_mod_cast h2
    have h4 : (200 * a + M) * 131072 + M < 2 * M * (k + 1) * 131072 := by
      rcases lt_or_le M 131072 with hlt | hge
      · nlinarith
      · have hMeq : M = 131072 := by omega
        subst hMeq
        omega
    have h5 : ((200 * a + M) * 131072 + M : ℚ) < 2 * (M : ℚ) * ((k : ℚ) + 1) * 131072 := by
      exact_mod_cast h4
    have h6 : (x + 1 / 2 + 1 / 262144) * (2 * (M : ℚ) * 131072)
        < ((k : ℚ) + 1) * (2 * (M : ℚ) * 131072) := by
      nlinarith
    have := lt_of_mul_lt_mul_right h6 (by linarith : (0 : ℚ) ≤ 2 * (M : ℚ) * 131072)
    linarith
  -- the quotient, rounded
  have hlo : f32 ((k : ℚ) - 1 / 2) = (k : ℚ) - 1 / 2 := by
    apply f32_fix (2 * k - 1) (-1) (by push_cast; norm_num; ring)
      (by rw [abs_lt]; constructor <;> omega) (by norm_num)
  have hq1 : (k : ℚ) - 1 / 2 ≤ f32 x := by
    rw [← hlo]; exact f32_mono (by linarith)
  have hlo2 : f32 (k : ℚ) = (k : ℚ) := f32_intCast k (by rw [abs_lt]; constructor <;> omega)
  have hr1 : (k : ℚ) ≤ f32 (f32 x + 1 / 2) := by
    rw [← hlo2]; exact f32_mono (by linarith)
  rcases lt_or_le k 64 with hk63 | hk64
  · -- below 64 the spacing is at most `2^-18`
    have hk63q : (k : ℚ) ≤ 63 := by
      have : k ≤ 63 := by omega
      exact_mod_cast this
    have hhi : f32 ((k : ℚ) + 1 / 2 - 1 / 262144) = (k : ℚ) + 1 / 2 - 1 / 262144 := by
      apply f32_fix ((2 * k + 1) * 131072 - 1) (-18) (by push_cast; norm_num; ring)
        (by rw [abs_lt]; constructor <;> omega) (by norm_num)
    have hq2 : f32 x ≤ (k : ℚ) + 1 / 2 - 1 / 262144 := by
      rw [← hhi]; exact f32_mono hgap.le
    have hhi2 : f32 ((k : ℚ) + 1 - 1 / 262144) = (k : ℚ) + 1 - 1 / 262144 := by
      apply f32_fix ((k + 1) * 262144 - 1) (-18) (by push_cast; norm_num; ring)
        (by rw [abs_lt]; constructor <;> omega) (by norm_num)
    have hr2 : f32 (f32 x + 1 / 2) ≤ (k : ℚ) + 1 - 1 / 262144 := by
      rw [← hhi2]; exact f32_mono (by linarith)
    exact float_to_int_eq hk0 (by omega) hr1 (by linarith)
  · -- from 64 on the spacing is `2^-17` and the midpoint decides
    have hk64q : (64 : ℚ) ≤ (k : ℚ) := by exact_mod_cast hk64
    have hq2 : f32 x ≤ (k : ℚ) + 1 / 2 - 1 / 131072 := by
      rcases lt_or_le x 64 with hx64 | hx64
      · have h64 : f32 ((64 : Int) : ℚ) = ((64 : Int) : ℚ) := f32_intCast 64 (by norm_num)
        have := f32_mono (x := x) (y := ((64 : Int) : ℚ)) (by push_cast; linarith)
        rw [h64] at this
        push_cast at this
        linarith
      · have := f32_le_of_lt_mid x 6 ((2 * k + 1) * 65536 - 1) (by norm_num)
          (by norm_num; linarith) (by norm_num; linarith)
          (by push_cast; norm_num; linarith)
        have he : (((2 * k + 1) * 65536 - 1 : Int) : ℚ) * (2 : ℚ) ^ ((6 : Int) - 23)
            = (k : ℚ) + 1 / 2 - 1 / 131072 := by
          push_cast; norm_num; ring
        rw [he] at this
        exact this
    have hhi2 : f32 ((k : ℚ) + 1 - 1 / 131072) = (k : ℚ) + 1 - 1 / 131072 := by
      apply f32_fix ((k + 1) * 131072 - 1) (-17) (by push_cast; norm_num; ring)
        (by rw [abs_lt]; constructor <;> omega) (by norm_num)
    have hr2 : f32 (f32 x + 1 / 2) ≤ (k : ℚ) + 1 - 1 / 131072 := by
      rw [← hhi2]; exact f32_mono (by linarith)
    exact float_to_int_eq hk0 (by omega) hr1 (by linarith)

/-- The value written by `set_volume`, for a whole percentage and a range
maximum `M ≤ 65536`: the integer quotient, with no rounding error. -/
theorem raw_target_exact (M : Int) (p : Nat) (hM : 0 ≤ M) (hM2 : M ≤ 65536) (hp : p ≤ 100) :
    float_to_long (f32 (f32 (int_to_float M * f32 (p : ℚ)) / int_to_float 100))
      = M * p / 100 := by
  have hMq : (0 : ℚ) ≤ (M : ℚ) := by exact_mod_cast hM
  have hM2q : (M : ℚ) ≤ 65536 := by exact_mod_cast hM2
  have hpq : ((p : Int) : ℚ) = (p : ℚ) := by push_cast; rfl
  have hp1 : f32 (p : ℚ) = (p : ℚ) := by
    rw [← hpq]; exact f32_intCast (p : Int) (by rw [abs_lt]; constructor <;> omega)
  have hprod : M * p ≤ 6553600 := by nlinarith
  have hprod0 : 0 ≤ M * p := by positivity
  rw [int_to_float_exact M (by rw [abs_lt]; constructor <;> omega),
    int_to_float_exact 100 (by norm_num), hp1]
  have hmul : f32 ((M : ℚ) * (p : ℚ)) = (M : ℚ) * (p : ℚ) := by
    apply f32_fix (M * p) 0 (by push_cast; simp) (by rw [abs_lt]; constructor <;> omega)
      (by norm_num)
  rw [hmul]
  set k : Int := M * p / 100 with hk
  have hk0 : 0 ≤ k := Int.ediv_nonneg hprod0 (by norm_num)
  have hk65 : k ≤ 65536 := by omega
  have hdiv : M * p = 100 * k + M * p % 100 := by
    have := Int.emod_add_ediv (M * p) 100
    omega
  have hmod0 : 0 ≤ M * p % 100 := Int.emod_nonneg _ (by norm_num)
  have hmod1 : M * p % 100 < 100 := Int.emod_lt_of_pos _ (by norm_num)
  have hy : ((M : ℚ) * (p : ℚ)) / ((100 : Int) : ℚ) = (k : ℚ) + ((M * p % 100 : Int) : ℚ) / 100 := by
    have : ((M : ℚ) * (p : ℚ)) = ((M * p : Int) : ℚ) := by push_cast; ring
    rw [this]
    nth_rewrite 1 [hdiv]
    push_cast; ring
  have hm0 : (0 : ℚ) ≤ ((M * p % 100 : Int) : ℚ) := by exact_mod_cast hmod0
  have hm1 : ((M * p % 100 : Int) : ℚ) ≤ 99 := by
    have : M * p % 100 ≤ 99 := by omega
    exact_mod_cast this
  have hlo : f32 (k : ℚ) = (k : ℚ) := f32_intCast k (by rw [abs_lt]; constructor <;> omega)
  have hhi : f32 ((k : ℚ) + 1 - 1 / 128) = (k : ℚ) + 1 - 1 / 128 := by
    apply f32_fix ((k + 1) * 128 - 1) (-7) (by push_cast; norm_num; ring)
      (by rw [abs_lt]; constructor <;> omega) (by norm_num)
  have h1 : (k : ℚ) ≤ f32 (((M : ℚ) * (p : ℚ)) / ((100 : Int) : ℚ)) := by
    rw [← hlo]; apply f32_mono; rw [hy]; linarith
  have h2 : f32 (((M : ℚ) * (p : ℚ)) / ((100 : Int) : ℚ)) ≤ (k : ℚ) + 1 - 1 / 128 := by
    rw [← hhi]; apply f32_mono; rw [hy]; linarith
  exact float_to_long_eq hk0 (by omega) h1 (by linarith)

/-- Write and read back for a range maximum above 65536, up to `2^58`, and a
whole percentage from 1 to 100: the raw target lies between `0` and `2^58` and
the percentage comes back. -/
theorem large_range_round_trip (M : Int) (p : Nat) (hM : 65536 < M) (hM58 : M ≤ 2 ^ 58)
    (hp1 : 1 ≤ p) (hp : p ≤ 100) :
    0 ≤ float_to_long (f32 (f32 (int_to_float M * f32 (p : ℚ)) / int_to_float 100))
      ∧ float_to_long (f32 (f32 (int_to_float M * f32 (p : ℚ)) / int_to_float 100)) ≤ 2 ^ 58
      ∧ float_to_int (f32 (f32 (f32 (100 * int_to_float
          (float_to_long (f32 (f32 (int_to_float M * f32 (p : ℚ)) / int_to_float 100))))
          / int_to_float M) + 1 / 2)) = p := by
  have hpq : ((p : Int) : ℚ) = (p : ℚ) := by push_cast; rfl
  have hpf : f32 (p : ℚ) = (p : ℚ) := by
    rw [← hpq]; exact f32_intCast (p : Int) (by rw [abs_lt]; constructor <;> omega)
  have h100 : int_to_float 100 = 100 := int_to_float_exact 100 (by norm_num)
  have hp1q : (1 : ℚ) ≤ (p : ℚ) := by exact_mod_cast hp1
  have hp100q : (p : ℚ) ≤ 100 := by exact_mod_cast hp
  -- the maximum as a float
  set y1 : ℚ := int_to_float M with hy1
  have hy1ge : (65536 : ℚ) ≤ y1 := by
    have h1 : f32 ((65536 : Int) : ℚ) = ((65536 : Int) : ℚ) := f32_intCast 65536 (by norm_num)
    have h2 : ((65536 : Int) : ℚ) ≤ (M : ℚ) := by exact_mod_cast hM.le
    have := f32_mono h2
    rw [h1] at this
    rw [hy1]; unfold int_to_float
    exact_mod_cast this
  have hy1le : y1 ≤ 288230376151711744 := by
    have h1 : f32 ((288230376151711744 : Int) : ℚ) = ((288230376151711744 : Int) : ℚ) :=
      f32_fix 1 58 (by norm_num) (by norm_num) (by norm_num)
    have h2 : (M : ℚ) ≤ ((288230376151711744 : Int) : ℚ) := by
      have : M ≤ 288230376151711744 := by norm_num at hM58; exact hM58
      exact_mod_cast this
    have := f32_mono h2
    rw [h1] at this
    rw [hy1]; unfold int_to_float
    exact_mod_cast this
  rw [hpf, h100]
  -- the product
  have hA : (65536 : ℚ) ≤ y1 * (p : ℚ) := by nlinarith
  have hA100 : y1 * (p : ℚ) ≤ y1 * 100 := by nlinarith
  obtain ⟨hy2a, hy2b⟩ := f32_rel (x := y1 * (p : ℚ)) (by linarith)
  have hy2le : f32 (y1 * (p : ℚ)) ≤ 28823037615171174400 := by
    have h1 : f32 (28823037615171174400 : ℚ) = 28823037615171174400 :=
      f32_fix 25 60 (by norm_num) (by norm_num) (by norm_num)
    rw [← h1]; exact f32_mono (by nlinarith)
  set y2 : ℚ := f32 (y1 * (p : ℚ)) with hy2
  -- the quotient by 100
  obtain ⟨hy3a, hy3b⟩ := f32_rel (x := y2 / 100) (by linarith)
  have hy3le : f32 (y2 / 100) ≤ 288230376151711744 := by
    have h1 : f32 (288230376151711744 : ℚ) = 288230376151711744 :=
      f32_fix 1 58 (by norm_num) (by norm_num) (by norm_num)
    rw [← h1]; exact f32_mono (by linarith)
  set y3 : ℚ := f32 (y2 / 100) with hy3
  -- the raw target
  have hy3pos : (0 : ℚ) ≤ y3 := by linarith
  have hr1 : ((⌊y3⌋ : Int) : ℚ) ≤ y3 := Int.floor_le y3
  have hr2 : y3 < ((⌊y3⌋ : Int) : ℚ) + 1 := Int.lt_floor_add_one y3
  have hr0 : 1 ≤ ⌊y3⌋ := by
    rw [Int.le_floor]; push_cast; linarith
  have hr58 : ⌊y3⌋ ≤ 288230376151711744 := by
    have : ((⌊y3⌋ : Int) : ℚ) ≤ ((288230376151711744 : Int) : ℚ) := by push_cast; linarith
    exact_mod_cast this
  have hraw : float_to_long y3 = ⌊y3⌋ :=
    float_to_long_eq (by omega) (by omega) hr1 hr2
  rw [hraw]
  have hr0q : (1 : ℚ) ≤ ((⌊y3⌋ : Int) : ℚ) := by exact_mod_cast hr0
  refine ⟨by omega, by omega, ?_⟩
  -- reading back
  obtain ⟨hca, hcb⟩ := f32_rel (x := ((⌊y3⌋ : Int) : ℚ)) (by linarith)
  have hc : int_to_float ⌊y3⌋ = f32 ((⌊y3⌋ : Int) : ℚ) := rfl
  rw [hc]
  set c : ℚ := f32 ((⌊y3⌋ : Int) : ℚ) with hcdef
  obtain ⟨hta, htb⟩ := f32_rel (x := 100 * c) (by linarith)
  set t : ℚ := f32 (100 * c) with htdef
  have hy1pos : (0 : ℚ) < y1 := by linarith
  have hw1 : (p : ℚ) - 1 / 8 ≤ t / y1 := by
    rw [le_div_iff₀ hy1pos]
    linarith
  have hw2 : t / y1 ≤ (p : ℚ) + 1 / 8 := by
    rw [div_le_iff₀ hy1pos]
    linarith
  obtain ⟨hqa, hqb⟩ := f32_rel (x := t / y1) (by linarith)
  set q : ℚ := f32 (t / y1) with hqdef
  have hlo : f32 ((p : Int) : ℚ) = ((p : Int) : ℚ) :=
    f32_intCast (p : Int) (by rw [abs_lt]; constructor <;> omega)
  have hhi : f32 ((p : ℚ) + 3 / 4) = (p : ℚ) + 3 / 4 := by
    apply f32_fix (4 * (p : Int) + 3) (-2) (by push_cast; norm_num; ring)
      (by rw [abs_lt]; constructor <;> omega) (by norm_num)
  have hf1 : ((p : Int) : ℚ) ≤ f32 (q + 1 / 2) := by
    rw [← hlo]; apply f32_mono; rw [hpq]; linarith
  have hf2 : f32 (q + 1 / 2) ≤ (p : ℚ) + 3 / 4 := by
    rw [← hhi]; apply f32_mono; linarith
  exact float_to_int_eq (by omega) (by omega) hf1 (by rw [hpq]; linarith)

/-- Write and read back for the percentage `0`. -/
theorem zero_round_trip (M : Int) :
    float_to_long (f32 (f32 (int_to_float M * f32 ((0 : Nat) : ℚ)) / int_to_float 100)) = 0
      ∧ float_to_int (f32 (f32 (f32 (100 * int_to_float 0) / int_to_float M) + 1 / 2)) = 0 := by
  have h0 : float_to_long 0 = 0 :=
    float_to_long_eq (le_refl 0) (by norm_num) (by norm_num) (by norm_num)
  have hi0 : int_to_float 0 = 0 := by unfold int_to_float; simp [f32_zero]
  have hhalf : f32 (1 / 2) = 1 / 2 :=
    f32_fix (x := 1 / 2) 1 (-1) (by norm_num) (by norm_num) (by norm_num)
  constructor
  · simp only [Nat.cast_zero, f32_zero, mul_zero, zero_div, h0]
  · simp only [hi0, mul_zero, f32_zero, zero_div, zero_add, hhalf]
    exact float_to_int_eq (le_refl 0) (by norm_num) (by norm_num) (by norm_num)

namespace alsa_mixer

/-! ## the channel scans -/

theorem get_volume_loop_skip (e : snd_mixer_elem) (ids : List Nat) (acc : Int × Int)
    (h : ∀ i, i ∈ ids → e.has_playback_channel i = false) :
    get_volume_loop e ids acc = acc := by
  induction ids generalizing acc with
  | nil => cases acc; rfl
  | cons i ids ih =>
    obtain ⟨chan_n, vol_total⟩ := acc
    unfold get_volume_loop
    simp only [snd_mixer_selem_has_playback_channel, h i (List.mem_cons_self i ids)]
    exact ih _ (fun j hj => h j (List.mem_cons_of_mem i hj))

/-- The scan of `get_volume` while no partial sum leaves the range of `long`:
channel volumes between `0` and `B`, and room for `B` for each id to come. -/
theorem get_volume_loop_eq (e : snd_mixer_elem) (B : Int) (ids : List Nat)
    (chan_n vol_total : Int) (hB0 : 0 ≤ B)
    (hvol : ∀ i, i ∈ ids → e.has_playback_channel i = true →
      0 ≤ e.volume i ∧ e.volume i ≤ B)
    (h0 : 0 ≤ vol_total) (hroom : vol_total + (ids.length : Int) * B < 2 ^ 63) :
    get_volume_loop e ids (chan_n, vol_total)
      = (chan_n + ((ids.filter e.has_playback_channel).length : Int),
         vol_total + ((ids.filter e.has_playback_channel).map e.volume).sum) := by
  induction ids generalizing chan_n vol_total with
  | nil => simp [get_volume_loop]
  | cons i ids ih =>
    have hlen : ((i :: ids).length : Int) = (ids.length : Int) + 1 := by
      simp only [List.length_cons]; push_cast; ring
    rw [hlen] at hroom
    have hrest : ∀ j, j ∈ ids → e.has_playback_channel j = true →
        0 ≤ e.volume j ∧ e.volume j ≤ B := fun j hj => hvol j (List.mem_cons_of_mem i hj)
    have hlenB : 0 ≤ (ids.length : Int) * B := mul_nonneg (by positivity) hB0
    unfold get_volume_loop
    by_cases h : e.has_playback_channel i = true
    · obtain ⟨hv0, hv1⟩ := hvol i (List.mem_cons_self i ids) h
      have hw : wrap_long (vol_total + e.volume i) = vol_total + e.volume i :=
        wrap_long_eq (by omega) (by nlinarith)
      simp only [snd_mixer_selem_has_playback_channel, h, if_true,
        snd_mixer_selem_get_playback_volume, hw]
      rw [ih _ _ hrest (by omega) (by nlinarith)]
      simp only [List.filter_cons_of_pos h, List.length_cons, List.map_cons, List.sum_cons]
      refine Prod.ext ?_ ?_
      · simp only [Nat.cast_add, Nat.cast_one]; ring
      · simp only; ring
    · have hf : e.has_playback_channel i = false := by simpa using h
      simp only [snd_mixer_selem_has_playback_channel, hf]
      rw [ih _ _ hrest h0 (by nlinarith)]
      simp [List.filter_cons, hf]

theorem is_muted_loop_eq (e : snd_mixer_elem) (ids : List Nat) (state : Int) :
    is_muted_loop e ids state
      = (ids.any e.has_playback_channel
          && decide ((snd_mixer_selem_get_playback_switch e SND_MIXER_SCHN_FRONT_LEFT).getD state
              = 0)) := by
  induction ids generalizing state with
  | nil => simp [is_muted_loop]
  | cons i ids ih =>
    unfold is_muted_loop
    by_cases h : e.has_playback_channel i = true
    · simp only [snd_mixer_selem_has_playback_channel, h, if_true, List.any_cons, Bool.true_or,
        Bool.true_and]
      by_cases h0 : (snd_mixer_selem_get_playback_switch e SND_MIXER_SCHN_FRONT_LEFT).getD state = 0
      · simp [h0]
      · rw [if_neg h0, ih]
        have hsame : (snd_mixer_selem_get_playback_switch e SND_MIXER_SCHN_FRONT_LEFT).getD
            ((snd_mixer_selem_get_playback_switch e SND_MIXER_SCHN_FRONT_LEFT).getD state)
            = (snd_mixer_selem_get_playback_switch e SND_MIXER_SCHN_FRONT_LEFT).getD state := by
          cases snd_mixer_selem_get_playback_switch e SND_MIXER_SCHN_FRONT_LEFT <;> rfl
        rw [hsame]
        simp [h0]
    · simp only [snd_mixer_selem_has_playback_channel, h, ih, List.any_cons]
      simp

/-- Closed form of `is_muted`. -/
theorem is_muted_eq (e : snd_mixer_elem) :
    is_muted e
      = ((List.range SND_MIXER_SCHN_LAST).any e.has_playback_channel
          && decide ((snd_mixer_selem_get_playback_switch e SND_MIXER_SCHN_FRONT_LEFT).getD 0
              = 0)) :=
  is_muted_loop_eq e _ 0

/-- Closed form of `get_volume`'s scan, for channel volumes between `0` and
`B ≤ 2^58`: the sum of at most 31 of them stays below `2^63`. -/
theorem get_volume_scan (e : snd_mixer_elem) (B : Int) (hB0 : 0 ≤ B) (hB : B ≤ 2 ^ 58)
    (hvol : ∀ i, i < SND_MIXER_SCHN_LAST → e.has_playback_channel i = true →
      0 ≤ e.volume i ∧ e.volume i ≤ B) :
    get_volume_loop e (List.range SND_MIXER_SCHN_LAST) (0, 0)
      = (((playback_channels e).length : Int), volume_sum e) := by
  rw [get_volume_loop_eq e B _ 0 0 hB0 (fun i hi => hvol i (List.mem_range.mp hi)) (le_refl 0)
    (by rw [List.length_range]; unfold SND_MIXER_SCHN_LAST; norm_num at hB ⊢; omega)]
  simp [playback_channels, volume_sum]

/-- Without playback channels the scan ends with `chan_n = 0` and the division
`vol_total / chan_n` is a division by zero. -/
theorem get_volume_of_no_channel (e : snd_mixer_elem)
    (h : ∀ i, i < SND_MIXER_SCHN_LAST → snd_mixer_selem_has_playback_channel e i = false) :
    get_volume e = Except.error fault.integer_division_by_zero := by
  unfold get_volume
  rw [get_volume_loop_skip e _ (0, 0) (fun i hi => h i (List.mem_range.mp hi))]
  rfl

/-- With a front-left channel, `is_muted` is the negation of its switch. -/
theorem is_muted_of_front_left (e : snd_mixer_elem)
    (h : e.has_playback_channel SND_MIXER_SCHN_FRONT_LEFT = true) :
    is_muted e = !e.switch SND_MIXER_SCHN_FRONT_LEFT := by
  rw [is_muted_eq]
  have hany : (List.range SND_MIXER_SCHN_LAST).any e.has_playback_channel = true := by
    rw [List.any_eq_true]
    exact ⟨SND_MIXER_SCHN_FRONT_LEFT, List.mem_range.mpr (by decide), h⟩
  rw [hany]
  unfold snd_mixer_selem_get_playback_switch
  rw [if_pos h]
  cases e.switch SND_MIXER_SCHN_FRONT_LEFT <;> simp

/-- Without a front-left channel the read fails, `state` keeps its initial `0`,
and `is_muted` tells whether there is any playback channel. -/
theorem is_muted_of_no_front_left (e : snd_mixer_elem)
    (h : e.has_playback_channel SND_MIXER_SCHN_FRONT_LEFT = false) :
    is_muted e = (List.range SND_MIXER_SCHN_LAST).any e.has_playback_channel := by
  rw [is_muted_eq]
  unfold snd_mixer_selem_get_playback_switch
  simp [h]


theorem toggle_mute_has (e : snd_mixer_elem) (state0 : Int) :
    (toggle_mute e state0).has_playback_channel = e.has_playback_channel := rfl

theorem set_mute_has (e : snd_mixer_elem) (mode : Bool) :
    (set_mute e mode).has_playback_channel = e.has_playback_channel := rfl

/-- On an element with a front-left channel `toggle_mute` inverts its switch. -/
theorem toggle_mute_front_left (e : snd_mixer_elem) (state0 : Int)
    (h : e.has_playback_channel SND_MIXER_SCHN_FRONT_LEFT = true) :
    (toggle_mute e state0).switch SND_MIXER_SCHN_FRONT_LEFT
      = !e.switch SND_MIXER_SCHN_FRONT_LEFT := by
  unfold toggle_mute snd_mixer_selem_set_playback_switch_all snd_mixer_selem_get_playback_switch
  simp only [h, if_true, Option.getD_some]
  cases e.switch SND_MIXER_SCHN_FRONT_LEFT <;> simp

/-- On an element with a front-left channel `set_mute(mode)` stores `mode` in the
switch, so `is_muted` answers the opposite of `mode`. -/
theorem is_muted_set_mute (e : snd_mixer_elem) (mode : Bool)
    (h : e.has_playback_channel SND_MIXER_SCHN_FRONT_LEFT = true) :
    is_muted (set_mute e mode) = !mode := by
  rw [is_muted_of_front_left _ (by rw [set_mute_has]; exact h)]
  unfold set_mute snd_mixer_selem_set_playback_switch_all
  simp only [h, if_true]
  cases mode <;> simp

/-! ## claims on the mute state -/

/-- C1, evaluated where it fails. On an element with the single channel
front-left, `set_mute(true)` leaves the switch on and `is_muted()` answers
`false`; it is `set_mute(false)` after which `is_muted()` answers `true`. -/
theorem set_mute_true_leaves_unmuted :
    (set_mute (single_channel 0 64 32 true) true).switch SND_MIXER_SCHN_FRONT_LEFT = true
      ∧ is_muted (set_mute (single_channel 0 64 32 true) true) = false
      ∧ is_muted (set_mute (single_channel 0 64 32 false) true) = false
      ∧ is_muted (set_mute (single_channel 0 64 32 true) false) = true := by
  decide

/-- C2. While `is_muted()` holds, `set_volume(p)` changes nothing: the element
state after the call is the state before it, whatever `p`; in particular every
raw volume and every switch. -/
theorem set_volume_while_muted (e : snd_mixer_elem) (percentage : ℚ)
    (h : is_muted e = true) :
    set_volume e percentage = e
      ∧ ∀ c, (set_volume e percentage).volume c = e.volume c
          ∧ (set_volume e percentage).switch c = e.switch c := by
  have heq : set_volume e percentage = e := by
    unfold set_volume; rw [if_pos h]
  exact ⟨heq, fun c => by rw [heq]; exact ⟨rfl, rfl⟩⟩

theorem set_volume_while_muted_witness :
    is_muted (single_channel 0 64 32 false) = true
      ∧ (set_volume (single_channel 0 64 32 false) 80).volume SND_MIXER_SCHN_FRONT_LEFT = 32 :=
  ⟨by decide,
    ((set_volume_while_muted (single_channel 0 64 32 false) 80 (by decide)).2
      SND_MIXER_SCHN_FRONT_LEFT).1⟩

/-- C4. Two calls of `toggle_mute()` in a row leave the answer of `is_muted()` as
it was, for every element state and whatever the uninitialised local holds. -/
theorem toggle_mute_twice (e : snd_mixer_elem) (state1 state2 : Int) :
    is_muted (toggle_mute (toggle_mute e state1) state2) = is_muted e := by
  cases h : e.has_playback_channel SND_MIXER_SCHN_FRONT_LEFT with
  | true =>
    have h1 : (toggle_mute e state1).has_playback_channel SND_MIXER_SCHN_FRONT_LEFT = true := h
    have h2 : (toggle_mute (toggle_mute e state1) state2).has_playback_channel
        SND_MIXER_SCHN_FRONT_LEFT = true := h
    rw [is_muted_of_front_left _ h2, is_muted_of_front_left _ h,
      toggle_mute_front_left _ _ h1, toggle_mute_front_left _ _ h, Bool.not_not]
  | false =>
    have h2 : (toggle_mute (toggle_mute e state1) state2).has_playback_channel
        SND_MIXER_SCHN_FRONT_LEFT = false := h
    rw [is_muted_of_no_front_left _ h2, is_muted_of_no_front_left _ h]
    rfl

/-- C5. `is_muted()` answers `true` exactly when the element has a playback
channel among the scanned ids and the state queried in that iteration (always
the switch of front-left, the local starting at `0`) is off; so it answers
`false` when the element has no playback channel. -/
theorem is_muted_iff (e : snd_mixer_elem) :
    (is_muted e = true ↔
        (∃ i, i < SND_MIXER_SCHN_LAST ∧ snd_mixer_selem_has_playback_channel e i = true)
          ∧ (snd_mixer_selem_get_playback_switch e SND_MIXER_SCHN_FRONT_LEFT).getD 0 = 0)
      ∧ ((∀ i, i < SND_MIXER_SCHN_LAST → snd_mixer_selem_has_playback_channel e i = false)
          → is_muted e = false) := by
  have hiff : is_muted e = true ↔
      (∃ i, i < SND_MIXER_SCHN_LAST ∧ snd_mixer_selem_has_playback_channel e i = true)
        ∧ (snd_mixer_selem_get_playback_switch e SND_MIXER_SCHN_FRONT_LEFT).getD 0 = 0 := by
    rw [is_muted_eq, Bool.and_eq_true, List.any_eq_true, decide_eq_true_eq]
    constructor
    · rintro ⟨⟨i, hi, hc⟩, hs⟩
      exact ⟨⟨i, List.mem_range.mp hi, hc⟩, hs⟩
    · rintro ⟨⟨i, hi, hc⟩, hs⟩
      exact ⟨⟨i, List.mem_range.mpr hi, hc⟩, hs⟩
  refine ⟨hiff, fun hno => ?_⟩
  cases hm : is_muted e with
  | false => rfl
  | true =>
    obtain ⟨⟨i, hi, hc⟩, _⟩ := hiff.mp hm
    rw [hno i hi] at hc
    exact absurd hc (by decide)

/-- C7, evaluated where it fails. On an element without playback channels
`get_volume()` reaches `vol_total / chan_n` with `chan_n = 0`: no guard
precedes the division. -/
theorem get_volume_without_channels :
    get_volume (no_channel 0 64) = Except.error fault.integer_division_by_zero :=
  get_volume_of_no_channel _ (fun _ _ => rfl)

/-! ## claims on the volume -/

theorem playback_channels_mem {e : snd_mixer_elem} {i : Nat} (h : i ∈ playback_channels e) :
    i < SND_MIXER_SCHN_LAST ∧ e.has_playback_channel i = true := by
  unfold playback_channels at h
  rw [List.mem_filter] at h
  exact ⟨List.mem_range.mp h.1, h.2⟩

/-- After a uniform write every playback channel holds the written value. -/
theorem volume_sum_set_all (e : snd_mixer_elem) (value : Int) :
    playback_channels (snd_mixer_selem_set_playback_volume_all e value) = playback_channels e
      ∧ volume_sum (snd_mixer_selem_set_playback_volume_all e value)
          = ((playback_channels e).length : Int) * value := by
  refine ⟨rfl, ?_⟩
  have hp : playback_channels (snd_mixer_selem_set_playback_volume_all e value)
      = playback_channels e := rfl
  unfold volume_sum
  rw [hp]
  have hmap : (playback_channels e).map (snd_mixer_selem_set_playback_volume_all e value).volume
      = (playback_channels e).map (fun _ => value) := by
    apply List.map_congr_left
    intro i hi
    have := (playback_channels_mem hi).2
    simp [snd_mixer_selem_set_playback_volume_all, this]
  rw [hmap, List.map_const', List.sum_replicate]
  simp

/-- Result of `get_volume` once the scan has ended with a channel count other
than zero, for a non-zero maximum. -/
theorem get_volume_of_scan (e : snd_mixer_elem) (chan_n vol_total : Int)
    (hscan : get_volume_loop e (List.range SND_MIXER_SCHN_LAST) (0, 0) = (chan_n, vol_total))
    (hn : chan_n ≠ 0) (hmax : e.vol_max ≠ 0) :
    get_volume e = Except.ok (float_to_int (f32 (f32 (f32 (100 * int_to_float
      (Int.tdiv vol_total chan_n)) / int_to_float e.vol_max) + 1 / 2))) := by
  unfold get_volume
  simp only [hscan, snd_mixer_selem_get_playback_volume_range, if_neg hn, if_neg hmax]

/-- Result of `get_volume` on an element with channels, a non-zero maximum and
channel volumes between `0` and `B ≤ 2^58`. -/
theorem get_volume_eq (e : snd_mixer_elem) (B : Int) (hn : 1 ≤ (playback_channels e).length)
    (hmax : e.vol_max ≠ 0) (hB0 : 0 ≤ B) (hB : B ≤ 2 ^ 58)
    (hvol : ∀ i, i < SND_MIXER_SCHN_LAST → e.has_playback_channel i = true →
      0 ≤ e.volume i ∧ e.volume i ≤ B) :
    get_volume e = Except.ok (float_to_int (f32 (f32 (f32 (100 * int_to_float
      (Int.tdiv (volume_sum e) ((playback_channels e).length : Int)))
      / int_to_float e.vol_max) + 1 / 2))) := by
  have hne : ((playback_channels e).length : Int) ≠ 0 := by omega
  exact get_volume_of_scan e _ _ (get_volume_scan e B hB0 hB hvol) hne hmax

theorem volume_sum_bounds (e : snd_mixer_elem) (M : Int)
    (hvol : ∀ i, i < SND_MIXER_SCHN_LAST → e.has_playback_channel i = true →
      0 ≤ e.volume i ∧ e.volume i ≤ M) :
    0 ≤ volume_sum e ∧ volume_sum e ≤ ((playback_channels e).length : Int) * M := by
  unfold volume_sum
  constructor
  · apply List.sum_nonneg
    intro x hx
    obtain ⟨i, hi, rfl⟩ := List.mem_map.mp hx
    exact (hvol i (playback_channels_mem hi).1 (playback_channels_mem hi).2).1
  · have := List.sum_le_card_nsmul ((playback_channels e).map e.volume) M (by
      intro x hx
      obtain ⟨i, hi, rfl⟩ := List.mem_map.mp hx
      exact (hvol i (playback_channels_mem hi).1 (playback_channels_mem hi).2).2)
    simpa using this

/-- What `get_volume` evaluates after a uniform write of `k`, `0 ≤ k ≤ 2^58`. -/
theorem get_volume_set_all (e : snd_mixer_elem) (k : Int)
    (hn : 1 ≤ (playback_channels e).length) (hmax : e.vol_max ≠ 0) (hk0 : 0 ≤ k)
    (hk58 : k ≤ 2 ^ 58) :
    get_volume (snd_mixer_selem_set_playback_volume_all e k)
      = Except.ok (float_to_int (f32 (f32 (f32 (100 * int_to_float k)
          / int_to_float e.vol_max) + 1 / 2))) := by
  have hne : ((playback_channels e).length : Int) ≠ 0 := by omega
  have h := get_volume_eq (snd_mixer_selem_set_playback_volume_all e k) k hn hmax hk0 hk58
    (fun i _ hi => by
      have hv : (snd_mixer_selem_set_playback_volume_all e k).volume i = k := by
        have hi' : e.has_playback_channel i = true := hi
        simp [snd_mixer_selem_set_playback_volume_all, hi']
      rw [hv]; exact ⟨hk0, le_refl k⟩)
  rw [(volume_sum_set_all e k).2, (volume_sum_set_all e k).1,
    Int.mul_tdiv_cancel_left _ hne] at h
  exact h

/-- Percentage read back after a uniform write of `k`, for `0 ≤ k ≤ max ≤ 65536`. -/
theorem get_volume_uniform (e : snd_mixer_elem) (k : Int)
    (hn : 1 ≤ (playback_channels e).length) (hmax : 0 < e.vol_max) (hmax2 : e.vol_max ≤ 65536)
    (hk0 : 0 ≤ k) (hk : k ≤ e.vol_max) :
    get_volume (snd_mixer_selem_set_playback_volume_all e k)
      = Except.ok (round ((100 * (k : ℚ)) / (e.vol_max : ℚ))) := by
  rw [get_volume_set_all e k hn (ne_of_gt hmax) hk0 (by norm_num; omega),
    percentage_expr_exact k e.vol_max hk0 hk hmax (by omega)]

/-- An unmuted `set_volume` is the uniform write of the converted target. -/
theorem set_volume_unmuted (e : snd_mixer_elem) (percentage : ℚ) (hm : is_muted e = false) :
    set_volume e percentage = snd_mixer_selem_set_playback_volume_all e
      (float_to_long (f32 (f32 (int_to_float e.vol_max * f32 percentage) / int_to_float 100))) := by
  unfold set_volume
  rw [hm]
  simp only [Bool.false_eq_true, if_false, snd_mixer_selem_get_playback_volume_range]

/-- What `set_volume` writes and what `get_volume` then reads, for a whole
percentage and a maximum of at most 65536. -/
theorem get_volume_after_set_volume (e : snd_mixer_elem) (p : Nat)
    (hm : is_muted e = false) (hn : 1 ≤ (playback_channels e).length)
    (hmax : 0 < e.vol_max) (hmax2 : e.vol_max ≤ 65536) (hp : p ≤ 100) :
    set_volume e (p : ℚ) = snd_mixer_selem_set_playback_volume_all e (e.vol_max * p / 100)
      ∧ get_volume (set_volume e (p : ℚ))
          = Except.ok (round ((100 * ((e.vol_max * p / 100 : Int) : ℚ)) / (e.vol_max : ℚ))) := by
  have hset : set_volume e (p : ℚ)
      = snd_mixer_selem_set_playback_volume_all e (e.vol_max * p / 100) := by
    unfold set_volume
    rw [hm]
    simp only [Bool.false_eq_true, if_false, snd_mixer_selem_get_playback_volume_range]
    rw [raw_target_exact e.vol_max p hmax.le hmax2 hp]
  refine ⟨hset, ?_⟩
  rw [hset]
  have hk0 : 0 ≤ e.vol_max * p / 100 := Int.ediv_nonneg (by positivity) (by norm_num)
  have hk : e.vol_max * p / 100 ≤ e.vol_max := by
    have h1 : e.vol_max * p ≤ e.vol_max * 100 := by nlinarith
    have := Int.ediv_le_ediv (by norm_num : (0 : Int) < 100) h1
    rwa [Int.mul_ediv_cancel _ (by norm_num : (100 : Int) ≠ 0)] at this
  exact get_volume_uniform e _ hn hmax hmax2 hk0 hk


theorem float_to_int_minus_99_5 : float_to_int (-(199 / 2)) = -99 := by
  have ht : float_trunc (-(199 / 2)) = -99 := by
    unfold float_trunc
    rw [if_neg (by norm_num), Int.ceil_eq_iff]
    norm_num
  unfold float_to_int INT_MIN
  rw [ht, if_pos (by norm_num)]

/-- The expression of `get_volume` for the average `-(2^k)` over a maximum
whose `float` is `2^k`: `-100 + 0.5`, converted to `-99`. -/
theorem percentage_of_wrapped_sum (k : Nat) (max : Int) (hk : k ≤ 100)
    (hmax : int_to_float max = (2 : ℚ) ^ (k : Int)) :
    float_to_int (f32 (f32 (f32 (100 * int_to_float (-(2 ^ k))) / int_to_float max) + 1 / 2))
      = -99 := by
  have hpos : (0 : ℚ) < (2 : ℚ) ^ (k : Int) := two_zpow_pos _
  have h1 : int_to_float (-(2 ^ k)) = -((2 : ℚ) ^ (k : Int)) := by
    unfold int_to_float
    rw [f32_fix (x := ((-(2 ^ k) : Int) : ℚ)) (-1) (k : Int) (by push_cast; simp)
      (by norm_num) (by omega)]
    push_cast; simp
  have h2 : f32 (100 * -((2 : ℚ) ^ (k : Int))) = -(100 * (2 : ℚ) ^ (k : Int)) := by
    rw [f32_fix (x := 100 * -((2 : ℚ) ^ (k : Int))) (-25) ((k : Int) + 2)
      (by rw [zpow_add₀ (by norm_num)]; push_cast; norm_num; ring) (by norm_num) (by omega)]
    ring
  have h3 : -(100 * (2 : ℚ) ^ (k : Int)) / (2 : ℚ) ^ (k : Int) = -100 := by
    field_simp
  have h4 : f32 (-100 : ℚ) = -100 :=
    f32_fix (x := (-100 : ℚ)) (-100) 0 (by norm_num) (by norm_num) (by norm_num)
  have h5 : f32 (-100 + 1 / 2 : ℚ) = -(199 / 2) :=
    (f32_fix (x := (-100 + 1 / 2 : ℚ)) (-199) (-1) (by norm_num) (by norm_num)
      (by norm_num)).trans (by norm_num)
  rw [h1, h2, hmax, h3, h4, h5]
  exact float_to_int_minus_99_5

/-- One channel, range maximum `2^63 - 1`: `set_volume(100)` computes `2^63`,
which no `long` holds; the conversion stores `LONG_MIN` and `get_volume()`
returns `-99`. -/
theorem round_trip_beyond_long :
    get_volume (set_volume (single_channel 0 9223372036854775807 0 true) 100)
      = Except.ok (-99) := by
  have hmaxf : int_to_float 9223372036854775807 = 9223372036854775808 := by
    unfold int_to_float
    rw [f32_eq_of_near ((9223372036854775807 : Int) : ℚ) 62 16777216 (by norm_num)
      (by norm_num) (by norm_num) (by norm_num) (by norm_num)]
    norm_num
  have hraw : float_to_long (f32 (f32 (int_to_float 9223372036854775807 * f32 100)
      / int_to_float 100)) = -9223372036854775808 := by
    rw [hmaxf, int_to_float_exact 100 (by norm_num),
      f32_fix (x := (100 : ℚ)) 100 0 (by norm_num) (by norm_num) (by norm_num),
      f32_fix (x := (9223372036854775808 : ℚ) * 100) 25 65 (by norm_num) (by norm_num)
        (by norm_num),
      f32_fix (x := (9223372036854775808 : ℚ) * 100 / ((100 : Int) : ℚ)) 1 63 (by norm_num)
        (by norm_num) (by norm_num)]
    unfold float_to_long LONG_MIN
    rw [float_trunc_eq (k := 9223372036854775808) (by norm_num) (by norm_num) (by norm_num),
      if_neg (by norm_num)]
    norm_num
  rw [set_volume_unmuted _ _ (by decide),
    show (single_channel 0 9223372036854775807 0 true).vol_max = 9223372036854775807 from rfl,
    hraw,
    get_volume_of_scan _ 1 (-9223372036854775808) (by decide) (by decide) (by decide),
    show (snd_mixer_selem_set_playback_volume_all
      (single_channel 0 9223372036854775807 0 true) (-9223372036854775808)).vol_max
      = 9223372036854775807 from rfl,
    show Int.tdiv (-9223372036854775808) 1 = -(2 ^ 63) by decide,
    percentage_of_wrapped_sum 63 _ (by norm_num) (by rw [hmaxf]; norm_num)]

/-- Sixteen channels, range maximum `2^59`: `set_volume(100)` writes `2^59` to
each, their sum `2^63` wraps to `-(2^63)` and `get_volume()` returns `-99`. -/
theorem round_trip_sum_beyond_long :
    get_volume (set_volume (front_channels 16 0 576460752303423488 0 true) 100)
      = Except.ok (-99) := by
  have hmaxf : int_to_float 576460752303423488 = 576460752303423488 := by
    unfold int_to_float
    exact f32_fix (x := ((576460752303423488 : Int) : ℚ)) 1 59 (by norm_num) (by norm_num)
      (by norm_num)
  have hraw : float_to_long (f32 (f32 (int_to_float 576460752303423488 * f32 100)
      / int_to_float 100)) = 576460752303423488 := by
    rw [hmaxf, int_to_float_exact 100 (by norm_num),
      f32_fix (x := (100 : ℚ)) 100 0 (by norm_num) (by norm_num) (by norm_num),
      f32_fix (x := (576460752303423488 : ℚ) * 100) 25 61 (by norm_num) (by norm_num)
        (by norm_num),
      f32_fix (x := (576460752303423488 : ℚ) * 100 / ((100 : Int) : ℚ)) 1 59
        (by norm_num) (by norm_num) (by norm_num)]
    exact float_to_long_eq (k := 576460752303423488) (by norm_num) (by norm_num) (by norm_num)
      (by norm_num)
  have hscan : get_volume_loop
      (snd_mixer_selem_set_playback_volume_all
        (front_channels 16 0 576460752303423488 0 true) 576460752303423488)
      (List.range SND_MIXER_SCHN_LAST) (0, 0) = (16, -9223372036854775808) := by
    set_option maxRecDepth 8000 in decide
  have hm : is_muted (front_channels 16 0 576460752303423488 0 true) = false := by
    set_option maxRecDepth 8000 in decide
  rw [set_volume_unmuted _ _ hm,
    show (front_channels 16 0 576460752303423488 0 true).vol_max = 576460752303423488 from rfl,
    hraw,
    get_volume_of_scan _ 16 (-9223372036854775808) hscan (by decide) (by decide),
    show (snd_mixer_selem_set_playback_volume_all
      (front_channels 16 0 576460752303423488 0 true) 576460752303423488).vol_max
      = 576460752303423488 from rfl,
    show Int.tdiv (-9223372036854775808) 16 = -(2 ^ 59) by decide,
    percentage_of_wrapped_sum 59 _ (by norm_num) (by rw [hmaxf]; norm_num)]

/-- C3, refuted as stated. Unmuted, at least one channel, maximum above zero,
percentage in `[0, 100]`. With range `(0, 1)`, `set_volume(50)` writes raw `0`
and `get_volume()` returns `0`; with range `(0, 63)`, `set_volume(92)` writes
raw `57` and `get_volume()` returns `90`; with range `(0, 140)` and the
percentage `2.125`, `get_volume()` returns `1`; with one channel and maximum
`2^63 - 1`, or sixteen channels and maximum `2^59`, `set_volume(100)` leaves the
range of `long` and `get_volume()` returns `-99`. Each is more than one away
from the percentage set. -/
theorem set_volume_get_volume_far_apart :
    is_muted (single_channel 0 1 0 true) = false
      ∧ get_volume (set_volume (single_channel 0 1 0 true) 50) = Except.ok 0
      ∧ ¬ (|((0 : Int) : ℚ) - 50| ≤ 1)
      ∧ is_muted (single_channel 0 63 0 true) = false
      ∧ get_volume (set_volume (single_channel 0 63 0 true) 92) = Except.ok 90
      ∧ ¬ (|((90 : Int) : ℚ) - 92| ≤ 1)
      ∧ is_muted (single_channel 0 140 0 true) = false
      ∧ get_volume (set_volume (single_channel 0 140 0 true) (17 / 8)) = Except.ok 1
      ∧ ¬ (|((1 : Int) : ℚ) - 17 / 8| ≤ 1)
      ∧ is_muted (single_channel 0 9223372036854775807 0 true) = false
      ∧ get_volume (set_volume (single_channel 0 9223372036854775807 0 true) 100)
          = Except.ok (-99)
      ∧ is_muted (front_channels 16 0 576460752303423488 0 true) = false
      ∧ get_volume (set_volume (front_channels 16 0 576460752303423488 0 true) 100)
          = Except.ok (-99)
      ∧ ¬ (|((-99 : Int) : ℚ) - 100| ≤ 1) := by
  have hn1 : 1 ≤ (playback_channels (single_channel 0 1 0 true)).length := by decide
  have hn2 : 1 ≤ (playback_channels (single_channel 0 140 0 true)).length := by decide
  have hn3 : 1 ≤ (playback_channels (single_channel 0 63 0 true)).length := by decide
  refine ⟨by decide, ?_, by norm_num, by decide, ?_, by norm_num [abs_le], by decide, ?_,
    by norm_num [abs_le], by decide, round_trip_beyond_long,
    by set_option maxRecDepth 8000 in decide, round_trip_sum_beyond_long,
    by norm_num [abs_le]⟩
  · have h := (get_volume_after_set_volume (single_channel 0 1 0 true) 50 (by decide) hn1
      (by decide) (by decide) (by decide)).2
    simp only [Nat.cast_ofNat] at h
    rw [h]
    have hv : (single_channel 0 1 0 true).vol_max = 1 := rfl
    rw [hv]
    norm_num
  · have h := (get_volume_after_set_volume (single_channel 0 63 0 true) 92 (by decide) hn3
      (by decide) (by decide) (by decide)).2
    simp only [Nat.cast_ofNat] at h
    rw [h]
    have hv : (single_channel 0 63 0 true).vol_max = 63 := rfl
    rw [hv, show (63 : Int) * 92 / 100 = 57 by decide, round_eq]
    congr 1
    rw [Int.floor_eq_iff]
    norm_num
  · have hraw : float_to_long (f32 (f32 (int_to_float 140 * f32 (17 / 8)) / int_to_float 100))
        = 2 := by
      rw [int_to_float_exact 140 (by norm_num), int_to_float_exact 100 (by norm_num),
        f32_fix (x := 17 / 8) 17 (-3) (by norm_num) (by norm_num) (by norm_num),
        f32_fix (x := ((140 : Int) : ℚ) * (17 / 8)) 595 (-1) (by norm_num) (by norm_num)
          (by norm_num)]
      exact float_to_long_f32_between _ 2 (by norm_num) (by norm_num) (by norm_num) (by norm_num)
    have hset : set_volume (single_channel 0 140 0 true) (17 / 8)
        = snd_mixer_selem_set_playback_volume_all (single_channel 0 140 0 true) 2 := by
      rw [set_volume_unmuted _ _ (by decide),
        show (single_channel 0 140 0 true).vol_max = 140 from rfl, hraw]
    rw [hset, get_volume_uniform _ 2 hn2 (by decide) (by decide) (by norm_num) (by decide)]
    have hv : (single_channel 0 140 0 true).vol_max = 140 := rfl
    rw [hv, round_eq]
    congr 1
    rw [Int.floor_eq_iff]
    norm_num

/-- Read-back within one step for a range maximum from 64 to 65536. -/
theorem set_volume_get_volume_exact_range (e : snd_mixer_elem) (p : Nat)
    (hm : is_muted e = false) (hn : 1 ≤ (playback_channels e).length)
    (hmax : 64 ≤ e.vol_max) (hmax2 : e.vol_max ≤ 65536) (hp : p ≤ 100) :
    ∃ v : Int, get_volume (set_volume e (p : ℚ)) = Except.ok v ∧ (p : Int) - 1 ≤ v ∧ v ≤ p := by
  have hpos : 0 < e.vol_max := by omega
  refine ⟨_, (get_volume_after_set_volume e p hm hn hpos hmax2 hp).2, ?_, ?_⟩
  all_goals
    rw [round_eq]
    set M := e.vol_max with hM
    set k : Int := M * p / 100 with hk
    have hMq : (0 : ℚ) < (M : ℚ) := by exact_mod_cast hpos
    have hdiv : M * p % 100 + 100 * k = M * p := Int.emod_add_ediv (M * p) 100
    have hr0 : 0 ≤ M * p % 100 := Int.emod_nonneg _ (by norm_num)
    -- the remainder of the truncation is at most one and a half raw steps
    have hr : 2 * (M * p % 100) ≤ 3 * M := by
      have hr99 : M * p % 100 < 100 := Int.emod_lt_of_pos _ (by norm_num)
      rcases lt_or_le M 66 with hlt | hge
      · rcases lt_or_le M 65 with h64 | h65
        · have hMeq : M = 64 := by omega
          rw [hMeq]; omega
        · have hMeq : M = 65 := by omega
          rw [hMeq]; omega
      · omega
    have hdivq : ((M * p % 100 : Int) : ℚ) + 100 * (k : ℚ) = (M : ℚ) * (p : ℚ) := by
      exact_mod_cast hdiv
    have hr0q : (0 : ℚ) ≤ ((M * p % 100 : Int) : ℚ) := by exact_mod_cast hr0
    have hrq : 2 * ((M * p % 100 : Int) : ℚ) ≤ 3 * (M : ℚ) := by exact_mod_cast hr
    have hx1 : 100 * (k : ℚ) / (M : ℚ) ≤ (p : ℚ) := by
      rw [div_le_iff₀ hMq]; linarith
    have hx2 : (p : ℚ) - 3 / 2 ≤ 100 * (k : ℚ) / (M : ℚ) := by
      rw [le_div_iff₀ hMq]; linarith
  · rw [Int.le_floor]; push_cast; linarith
  · have : ⌊100 * (k : ℚ) / (M : ℚ) + 1 / 2⌋ < (p : Int) + 1 := by
      rw [Int.floor_lt]; push_cast; linarith
    omega

/-- C3, amended. For an unmuted element with at least one playback channel and
a range maximum from 64 to `2^58`, and a whole percentage `p` in `[0, 100]`,
`set_volume(p)` followed by `get_volume()` returns `p` or `p - 1`. -/
theorem set_volume_get_volume (e : snd_mixer_elem) (p : Nat)
    (hm : is_muted e = false) (hn : 1 ≤ (playback_channels e).length)
    (hmax : 64 ≤ e.vol_max) (hmax58 : e.vol_max ≤ 2 ^ 58) (hp : p ≤ 100) :
    ∃ v : Int, get_volume (set_volume e (p : ℚ)) = Except.ok v ∧ (p : Int) - 1 ≤ v ∧ v ≤ p := by
  by_cases hsmall : e.vol_max ≤ 65536
  · exact set_volume_get_volume_exact_range e p hm hn hmax hsmall hp
  · have hbig : 65536 < e.vol_max := by omega
    refine ⟨(p : Int), ?_, by omega, le_refl _⟩
    rw [set_volume_unmuted e (p : ℚ) hm]
    rcases Nat.eq_zero_or_pos p with h0 | hpos
    · subst h0
      rw [(zero_round_trip e.vol_max).1,
        get_volume_set_all e 0 hn (by omega) (le_refl 0) (by norm_num),
        (zero_round_trip e.vol_max).2]
      rfl
    · obtain ⟨hr0, hr58, hback⟩ := large_range_round_trip e.vol_max p hbig hmax58 hpos hp
      rw [get_volume_set_all e _ hn (by omega) hr0 hr58, hback]

theorem set_volume_get_volume_witness :
    is_muted (single_channel 0 64 0 true) = false
      ∧ 1 ≤ (playback_channels (single_channel 0 64 0 true)).length
      ∧ 64 ≤ (single_channel 0 64 0 true).vol_max
      ∧ (single_channel 0 64 0 true).vol_max ≤ 2 ^ 58
      ∧ ∃ v : Int, get_volume (set_volume (single_channel 0 64 0 true) ((14 : Nat) : ℚ))
          = Except.ok v ∧ ((14 : Nat) : Int) - 1 ≤ v ∧ v ≤ (14 : Nat) :=
  ⟨by decide, by decide, by decide, by decide,
    set_volume_get_volume (single_channel 0 64 0 true) 14 (by decide) (by decide) (by decide)
      (by decide) (by decide)⟩

/-- C6, refuted as stated. One channel. With raw volume `2^30 - 1` and range
maximum `25 * 2^33` the conversion of the average to `float` rounds it to
`2^30`: `get_volume()` returns `1` and the rounded percentage is `0`. With raw
volume `89785` and maximum `131073` the quotient rounds up to `68.5`:
`get_volume()` returns `69` against `68`. With raw volume `2^25 + 1` above a
maximum of `2` it returns `1677721600` against `1677721650`. -/
theorem get_volume_single_precision :
    (playback_channels (single_channel 0 214748364800 1073741823 true)).length = 1
      ∧ volume_sum (single_channel 0 214748364800 1073741823 true) = 1073741823
      ∧ get_volume (single_channel 0 214748364800 1073741823 true) = Except.ok 1
      ∧ spec_percentage 1073741823 1 214748364800 = 0
      ∧ get_volume (single_channel 0 131073 89785 true) = Except.ok 69
      ∧ spec_percentage 89785 1 131073 = 68
      ∧ get_volume (single_channel 0 2 33554433 true) = Except.ok 1677721600
      ∧ spec_percentage 33554433 1 2 = 1677721650 := by
  refine ⟨by decide, by decide, ?_, ?_, ?_, ?_, ?_, ?_⟩
  · rw [get_volume_eq _ 1073741823 (by decide) (by decide) (by decide) (by decide)
      (fun _ _ _ => ⟨(by decide : (0 : Int) ≤ 1073741823), le_refl _⟩)]
    rw [show volume_sum (single_channel 0 214748364800 1073741823 true) = 1073741823 by decide,
      show (playback_channels (single_channel 0 214748364800 1073741823 true)).length = 1
        by decide,
      show (single_channel 0 214748364800 1073741823 true).vol_max = 214748364800 from rfl,
      show Int.tdiv 1073741823 ((1 : Nat) : Int) = 1073741823 by decide]
    have h1 : int_to_float 1073741823 = 1073741824 := by
      unfold int_to_float
      rw [f32_eq_of_near ((1073741823 : Int) : ℚ) 29 16777216 (by norm_num) (by norm_num)
        (by norm_num) (by norm_num) (by norm_num)]
      norm_num
    have h2 : f32 (100 * 1073741824) = 107374182400 :=
      f32_fix (x := 100 * 1073741824) 25 32 (by norm_num) (by norm_num) (by norm_num) |>.trans
        (by norm_num)
    have h3 : int_to_float 214748364800 = 214748364800 := by
      unfold int_to_float
      exact f32_fix (x := ((214748364800 : Int) : ℚ)) 25 33 (by norm_num) (by norm_num)
        (by norm_num)
    have h4 : f32 (107374182400 / 214748364800) = 1 / 2 :=
      f32_fix (x := 107374182400 / 214748364800) 1 (-1) (by norm_num)
        (by norm_num) (by norm_num) |>.trans (by norm_num)
    have h5 : f32 (1 / 2 + 1 / 2) = 1 :=
      f32_fix (x := 1 / 2 + 1 / 2) 1 0 (by norm_num) (by norm_num) (by norm_num) |>.trans
        (by norm_num)
    rw [h1, h2, h3, h4, h5]
    congr 1
  · unfold spec_percentage
    rw [round_eq, Int.floor_eq_iff]
    norm_num
  · rw [get_volume_eq _ 89785 (by decide) (by decide) (by decide) (by decide)
      (fun _ _ _ => ⟨(by decide : (0 : Int) ≤ 89785), le_refl _⟩)]
    rw [show volume_sum (single_channel 0 131073 89785 true) = 89785 by decide,
      show (playback_channels (single_channel 0 131073 89785 true)).length = 1 by decide,
      show (single_channel 0 131073 89785 true).vol_max = 131073 from rfl,
      show Int.tdiv 89785 ((1 : Nat) : Int) = 89785 by decide]
    have h1 : int_to_float 89785 = 89785 := int_to_float_exact _ (by norm_num)
    have h2 : f32 (100 * 89785) = 8978500 :=
      f32_fix (x := 100 * 89785) 8978500 0 (by norm_num) (by norm_num)
        (by norm_num) |>.trans (by norm_num)
    have h3 : int_to_float 131073 = 131073 := int_to_float_exact _ (by norm_num)
    have h4 : f32 (8978500 / 131073) = 137 / 2 := by
      rw [f32_eq_of_near (8978500 / 131073) 6 8978432 (by norm_num) (by norm_num)
        (by norm_num) (by norm_num) (by norm_num)]
      norm_num
    have h5 : f32 (137 / 2 + 1 / 2) = 69 :=
      f32_fix (x := 137 / 2 + 1 / 2) 69 0 (by norm_num) (by norm_num) (by norm_num) |>.trans
        (by norm_num)
    rw [h1, h2, h3, h4, h5]
    congr 1
  · unfold spec_percentage
    rw [round_eq, Int.floor_eq_iff]
    norm_num
  · rw [get_volume_eq _ 33554433 (by decide) (by decide) (by decide) (by decide)
      (fun _ _ _ => ⟨(by decide : (0 : Int) ≤ 33554433), le_refl _⟩)]
    rw [show volume_sum (single_channel 0 2 33554433 true) = 33554433 by decide,
      show (playback_channels (single_channel 0 2 33554433 true)).length = 1 by decide,
      show (single_channel 0 2 33554433 true).vol_max = 2 from rfl,
      show Int.tdiv 33554433 ((1 : Nat) : Int) = 33554433 by decide]
    have h1 : int_to_float 33554433 = 33554432 := by
      unfold int_to_float
      rw [f32_eq_of_near ((33554433 : Int) : ℚ) 25 8388608 (by norm_num) (by norm_num)
        (by norm_num) (by norm_num) (by norm_num)]
      norm_num
    have h2 : f32 (100 * 33554432) = 3355443200 :=
      f32_fix (x := 100 * 33554432) 25 27 (by norm_num) (by norm_num) (by norm_num) |>.trans
        (by norm_num)
    have h3 : int_to_float 2 = 2 := int_to_float_exact _ (by norm_num)
    have h4 : f32 (3355443200 / 2) = 1677721600 :=
      f32_fix (x := 3355443200 / 2) 25 26 (by norm_num) (by norm_num) (by norm_num) |>.trans
        (by norm_num)
    have h5 : f32 (1677721600 + 1 / 2) = 1677721600 := by
      rw [f32_eq_of_near (1677721600 + 1 / 2) 30 13107200 (by norm_num) (by norm_num)
        (by norm_num) (by norm_num) (by norm_num)]
      norm_num
    rw [h1, h2, h3, h4, h5]
    exact congrArg Except.ok
      (float_to_int_eq (k := 1677721600) (by norm_num) (by norm_num) (by norm_num)
        (by norm_num))
  · unfold spec_percentage
    rw [round_eq, Int.floor_eq_iff]
    norm_num

/-- C6, amended. For an element with `n ≥ 1` playback channels, range maximum
`0 < max ≤ 131072` and every raw channel volume in `[0, max]`, `get_volume()`
returns `round(100 * (s / n) / max)`, where `s` is the sum of the raw volumes
and `s / n` the integer channel average. With range `(0, 64)`, one channel and
unmuted, `set_volume(50)` writes raw `32` and `get_volume()` then returns `50`. -/
theorem get_volume_rounded_percentage (e : snd_mixer_elem)
    (hn : 1 ≤ (playback_channels e).length) (hmax : 0 < e.vol_max)
    (hmax2 : e.vol_max ≤ 131072)
    (hvol : ∀ i, i < SND_MIXER_SCHN_LAST → e.has_playback_channel i = true →
      0 ≤ e.volume i ∧ e.volume i ≤ e.vol_max) :
    get_volume e
        = Except.ok (spec_percentage (volume_sum e) (playback_channels e).length e.vol_max)
      ∧ ∀ v0 : Int,
          (set_volume (single_channel 0 64 v0 true) 50).volume SND_MIXER_SCHN_FRONT_LEFT = 32
            ∧ get_volume (set_volume (single_channel 0 64 v0 true) 50) = Except.ok 50 := by
  constructor
  · obtain ⟨hs0, hs1⟩ := volume_sum_bounds e e.vol_max hvol
    have hnpos : (0 : Int) < ((playback_channels e).length : Int) := by omega
    have ha0 : 0 ≤ volume_sum e / ((playback_channels e).length : Int) :=
      Int.ediv_nonneg hs0 hnpos.le
    have ha1 : volume_sum e / ((playback_channels e).length : Int) ≤ e.vol_max := by
      have := Int.ediv_le_ediv hnpos hs1
      rwa [Int.mul_ediv_cancel_left _ (ne_of_gt hnpos)] at this
    rw [get_volume_eq e e.vol_max hn (ne_of_gt hmax) hmax.le (by norm_num; omega) hvol,
      Int.tdiv_eq_ediv hs0 hnpos.le,
      percentage_expr_exact _ _ ha0 ha1 hmax hmax2]
    rfl
  · intro v0
    have hfl : (single_channel 0 64 v0 true).has_playback_channel SND_MIXER_SCHN_FRONT_LEFT
        = true := rfl
    have hm : is_muted (single_channel 0 64 v0 true) = false := by
      rw [is_muted_of_front_left _ hfl]; rfl
    have hn1 : 1 ≤ (playback_channels (single_channel 0 64 v0 true)).length :=
      le_of_eq (rfl : 1 = (playback_channels (single_channel 0 64 v0 true)).length)
    have h := get_volume_after_set_volume (single_channel 0 64 v0 true) 50 hm hn1
      (by decide : (0 : Int) < 64) (by decide : (64 : Int) ≤ 65536) (by decide)
    simp only [Nat.cast_ofNat] at h
    have hv : (single_channel 0 64 v0 true).vol_max = 64 := rfl
    rw [hv] at h
    obtain ⟨hset, hget⟩ := h
    refine ⟨?_, ?_⟩
    · rw [hset]
      simp only [snd_mixer_selem_set_playback_volume_all, hfl, if_true]
      decide
    · rw [hget, round_eq]
      congr 1
      rw [Int.floor_eq_iff]
      norm_num

theorem get_volume_rounded_percentage_witness :
    1 ≤ (playback_channels (single_channel 0 64 32 true)).length
      ∧ 0 < (single_channel 0 64 32 true).vol_max
      ∧ (single_channel 0 64 32 true).vol_max ≤ 131072
      ∧ get_volume (single_channel 0 64 32 true)
          = Except.ok (spec_percentage (volume_sum (single_channel 0 64 32 true))
              (playback_channels (single_channel 0 64 32 true)).length
              (single_channel 0 64 32 true).vol_max) :=
  ⟨by decide, by decide, by decide,
    (get_volume_rounded_percentage (single_channel 0 64 32 true) (by decide) (by decide)
      (by decide) (fun _ _ _ => (by decide : (0 : Int) ≤ 32 ∧ (32 : Int) ≤ 64))).1⟩

end alsa_mixer

/-! ## claims on `alsa_ctl_interface` -/

theorem throw_exception_is_error {α : Type} (snd_strerror : Int → Option String)
    (T : String → alsa_exception) (message : String) (error_code : Int) :
    ∃ msg, (throw_exception snd_strerror T message error_code : Except alsa_exception α)
      = Except.error (T msg) := by
  unfold throw_exception
  cases snd_strerror error_code with
  | none => exact ⟨_, rfl⟩
  | some s => exact ⟨_, rfl⟩

/-- C8. The method `wait` fails, with `alsa_ctl_interface_error`, exactly when the
native wait returns a negative code. Otherwise it returns `true` exactly when
the read did not fail and left an event of the element type whose mask has the
value bit (bit 0) set, and `false` in every other case. -/
theorem wait_contract (snd_strerror : Int → Option String) (native : Int → ctl_wait_results)
    (timeout : Int) :
    ((∃ msg, alsa_ctl_interface.wait snd_strerror native timeout
          = Except.error (alsa_exception.alsa_ctl_interface_error msg))
        ↔ (native timeout).snd_ctl_wait < 0)
      ∧ (alsa_ctl_interface.wait snd_strerror native timeout = Except.ok true
        ↔ 0 ≤ (native timeout).snd_ctl_wait ∧ 0 ≤ (native timeout).snd_ctl_read
            ∧ (native timeout).snd_ctl_event_get_type = SND_CTL_EVENT_ELEM
            ∧ (native timeout).snd_ctl_event_elem_get_mask.testBit 0 = true)
      ∧ (alsa_ctl_interface.wait snd_strerror native timeout = Except.ok false
        ↔ 0 ≤ (native timeout).snd_ctl_wait
            ∧ ¬ (0 ≤ (native timeout).snd_ctl_read
              ∧ (native timeout).snd_ctl_event_get_type = SND_CTL_EVENT_ELEM
              ∧ (native timeout).snd_ctl_event_elem_get_mask.testBit 0 = true)) := by
  have hbit : ∀ m : Nat, (m &&& SND_CTL_EVENT_MASK_VALUE ≠ 0) ↔ m.testBit 0 = true := by
    intro m
    unfold SND_CTL_EVENT_MASK_VALUE
    rw [Nat.and_one_is_mod, Nat.testBit_zero, decide_eq_true_eq]
    omega
  by_cases hw : (native timeout).snd_ctl_wait < 0
  · obtain ⟨msg, hmsg⟩ := @throw_exception_is_error Bool snd_strerror
      alsa_exception.alsa_ctl_interface_error "Failed to wait for events"
      (native timeout).snd_ctl_wait
    have hval : alsa_ctl_interface.wait snd_strerror native timeout
        = Except.error (alsa_exception.alsa_ctl_interface_error msg) := by
      unfold alsa_ctl_interface.wait
      simp only [hw, if_true, hmsg]
    rw [hval]
    refine ⟨⟨fun _ => hw, fun _ => ⟨msg, rfl⟩⟩, ⟨fun h => ?_, fun h => ?_⟩, ⟨fun h => ?_, fun h => ?_⟩⟩
    · cases h
    · omega
    · cases h
    · omega
  · have hw0 : 0 ≤ (native timeout).snd_ctl_wait := by omega
    by_cases hr : (native timeout).snd_ctl_read < 0
    · have hval : alsa_ctl_interface.wait snd_strerror native timeout = Except.ok false := by
        unfold alsa_ctl_interface.wait
        simp only [hw, if_false, hr, if_true]
      rw [hval]
      refine ⟨⟨fun ⟨_, h⟩ => ?_, fun h => absurd h hw⟩, ⟨fun h => ?_, fun h => ?_⟩,
        ⟨fun _ => ⟨hw0, fun h => ?_⟩, fun _ => rfl⟩⟩
      · cases h
      · cases h
      · omega
      · omega
    · have hr0 : 0 ≤ (native timeout).snd_ctl_read := by omega
      by_cases ht : (native timeout).snd_ctl_event_get_type = SND_CTL_EVENT_ELEM
      · have hval : alsa_ctl_interface.wait snd_strerror native timeout
            = Except.ok (decide ((native timeout).snd_ctl_event_elem_get_mask
                &&& SND_CTL_EVENT_MASK_VALUE ≠ 0)) := by
          unfold alsa_ctl_interface.wait
          simp only [hw, if_false, hr, ht, ne_eq, not_true_eq_false]
        rw [hval]
        refine ⟨⟨fun ⟨_, h⟩ => ?_, fun h => absurd h hw⟩, ⟨fun h => ?_, fun h => ?_⟩,
          ⟨fun h => ?_, fun h => ?_⟩⟩
        · cases h
        · injection h with h
          rw [decide_eq_true_eq] at h
          exact ⟨hw0, hr0, ht, (hbit _).mp h⟩
        · rw [decide_eq_true ((hbit _).mpr h.2.2.2)]
        · injection h with h
          rw [decide_eq_false_iff_not] at h
          exact ⟨hw0, fun hc => h ((hbit _).mpr hc.2.2)⟩
        · have hn : ¬ ((native timeout).snd_ctl_event_elem_get_mask
              &&& SND_CTL_EVENT_MASK_VALUE ≠ 0) := fun hc => h.2 ⟨hr0, ht, (hbit _).mp hc⟩
          rw [decide_eq_false hn]
      · have hval : alsa_ctl_interface.wait snd_strerror native timeout = Except.ok false := by
          unfold alsa_ctl_interface.wait
          simp only [hw, if_false, hr, ne_eq, ht, not_false_eq_true, if_true]
        rw [hval]
        refine ⟨⟨fun ⟨_, h⟩ => ?_, fun h => absurd h hw⟩, ⟨fun h => ?_, fun h => ?_⟩,
          ⟨fun _ => ⟨hw0, fun h => ?_⟩, fun _ => rfl⟩⟩
        · cases h
        · cases h
        · exact absurd h.2.2.1 ht
        · exact absurd h.2.1 ht

/-- The four stages that go through `throw_exception` append the native string. -/
theorem constructor_stage_messages (snd_strerror : Int → Option String) (card : String)
    (native : ctl_open_results) (s : String) (code : Int) (hcode : code < 0)
    (hs : snd_strerror code = some s) :
    (native.snd_ctl_open = code →
        alsa_ctl_interface snd_strerror card native
          = Except.error (alsa_exception.alsa_ctl_interface_error
              (("Could not open control \x27" ++ card ++ "\x27") ++ (": " ++ s))))
      ∧ (0 ≤ native.snd_ctl_open → native.snd_ctl_elem_info = code →
        alsa_ctl_interface snd_strerror card native
          = Except.error (alsa_exception.alsa_ctl_interface_error
              ("Could not get control datal" ++ (": " ++ s))))
      ∧ (0 ≤ native.snd_ctl_open → 0 ≤ native.snd_ctl_elem_info → native.snd_hctl_open = code →
        alsa_ctl_interface snd_strerror card native
          = Except.error (alsa_exception.alsa_ctl_interface_error
              ("Failed to open hctl" ++ (": " ++ s))))
      ∧ (0 ≤ native.snd_ctl_open → 0 ≤ native.snd_ctl_elem_info → 0 ≤ native.snd_hctl_open →
        native.snd_hctl_load = code →
        alsa_ctl_interface snd_strerror card native
          = Except.error (alsa_exception.alsa_ctl_interface_error
              ("Failed to load hctl" ++ (": " ++ s)))) := by
  refine ⟨?_, ?_, ?_, ?_⟩
  · intro h1
    unfold alsa_ctl_interface throw_exception
    rw [h1, if_pos hcode, hs]
  · intro h1 h2
    unfold alsa_ctl_interface throw_exception
    rw [if_neg (by omega), h2, if_pos hcode, hs]
  · intro h1 h2 h3
    unfold alsa_ctl_interface throw_exception
    rw [if_neg (by omega), if_neg (by omega), h3, if_pos hcode, hs]
  · intro h1 h2 h3 h4
    unfold alsa_ctl_interface throw_exception
    rw [if_neg (by omega), if_neg (by omega), if_neg (by omega), h4, if_pos hcode, hs]

/-- C9, evaluated where it fails. When `snd_ctl_subscribe_events` returns `-1`,
for which the native layer has the string "Operation not permitted", the
constructor fails with the message "Could not subscribe to events: 5" (the
element id, not the native string); the load stage, on the same code, appends
the native string. -/
theorem subscribe_error_without_native_string :
    alsa_ctl_interface (fun _ => some "Operation not permitted") "default"
        { snd_ctl_open := 0, snd_ctl_elem_info := 0, snd_hctl_open := 0, snd_hctl_load := 0,
          snd_hctl_find_elem := true, snd_ctl_elem_id_get_numid := 5,
          snd_ctl_subscribe_events := -1 }
      = Except.error (alsa_exception.alsa_ctl_interface_error "Could not subscribe to events: 5")
    ∧ alsa_ctl_interface (fun _ => some "Operation not permitted") "default"
        { snd_ctl_open := 0, snd_ctl_elem_info := 0, snd_hctl_open := 0, snd_hctl_load := -1,
          snd_hctl_find_elem := true, snd_ctl_elem_id_get_numid := 5,
          snd_ctl_subscribe_events := 0 }
      = Except.error (alsa_exception.alsa_ctl_interface_error
          "Failed to load hctl: Operation not permitted") :=
  ⟨rfl, rfl⟩

namespace throttle_util

/-! ## claims on the event throttler -/

/-- The loop of `expire_timestamps` drops the leading timestamps at least `w` old. -/
theorem expire_loop_eq (now : timepoint) (w : timewindow) (q : queue) :
    expire_loop now w q = drop_expired now w q := by
  induction q with
  | nil => rfl
  | cons front rest ih =>
    unfold expire_loop drop_expired
    by_cases h : ((now - front : Int) : ℚ) < w
    · rw [if_pos h, List.dropWhile_cons_of_neg]
      simpa using h
    · rw [if_neg h, List.dropWhile_cons_of_pos, ih]
      · rfl
      · simpa using h

theorem passthrough_fst (t : event_throttler) (now : timepoint) :
    (t.passthrough now).1
      = decide ((drop_expired now t.m_timewindow t.m_queue).length < t.m_limit) := by
  unfold event_throttler.passthrough event_throttler.expire_timestamps
    strategy.try_once_or_leave_yolo
  simp only [expire_loop_eq]
  by_cases h : (drop_expired now t.m_timewindow t.m_queue).length ≥ t.m_limit
  · rw [if_pos h]; simp only [ge_iff_le] at h; simp [Nat.not_lt.mpr h]
  · rw [if_neg h]; simp only [ge_iff_le, not_le] at h; simp [h]

theorem passthrough_snd (t : event_throttler) (now : timepoint) :
    (t.passthrough now).2
      = { m_queue :=
            if (drop_expired now t.m_timewindow t.m_queue).length < t.m_limit then
              drop_expired now t.m_timewindow t.m_queue ++ [now]
            else drop_expired now t.m_timewindow t.m_queue,
          m_limit := t.m_limit, m_timewindow := t.m_timewindow } := by
  unfold event_throttler.passthrough event_throttler.expire_timestamps
    strategy.try_once_or_leave_yolo
  simp only [expire_loop_eq]
  by_cases h : (drop_expired now t.m_timewindow t.m_queue).length ≥ t.m_limit
  · rw [if_pos h]; simp only [ge_iff_le] at h; rw [if_neg (Nat.not_lt.mpr h)]
  · rw [if_neg h]; simp only [ge_iff_le, not_le] at h; rw [if_pos h]

theorem drop_expired_length_le (now : timepoint) (w : timewindow) (q : queue) :
    (drop_expired now w q).length ≤ q.length := by
  unfold drop_expired
  exact (List.dropWhile_sublist _).length_le

theorem passthrough_queue_length (t : event_throttler) (now : timepoint)
    (h : t.m_queue.length ≤ t.m_limit) :
    (t.passthrough now).2.m_queue.length ≤ (t.passthrough now).2.m_limit := by
  rw [passthrough_snd]
  simp only
  have := drop_expired_length_le now t.m_timewindow t.m_queue
  split_ifs with hlt
  · rw [List.length_append]; simp only [List.length_singleton]; omega
  · omega

theorem run_queue_length (t : event_throttler) (nows : List timepoint)
    (h : t.m_queue.length ≤ t.m_limit) :
    (run t nows).m_queue.length ≤ t.m_limit := by
  induction nows generalizing t with
  | nil => exact h
  | cons now nows ih =>
    unfold run
    have h1 := passthrough_queue_length t now h
    have h2 := ih (t.passthrough now).2 h1
    have h3 : (t.passthrough now).2.m_limit = t.m_limit := by rw [passthrough_snd]
    rw [h3] at h2
    exact h2

theorem admitted_subset (t : event_throttler) (nows : List timepoint) :
    ∀ a, a ∈ admitted t nows → a ∈ nows := by
  induction nows generalizing t with
  | nil => intro a ha; simp [admitted] at ha
  | cons now nows ih =>
    intro a ha
    unfold admitted at ha
    split_ifs at ha
    · rcases List.mem_cons.mp ha with h | h
      · exact List.mem_cons.mpr (Or.inl h)
      · exact List.mem_cons.mpr (Or.inr (ih _ a h))
    · exact List.mem_cons.mpr (Or.inr (ih _ a ha))

/-- Timestamps expired at `now` lie before every window that `now` is still in. -/
theorem countP_drop_expired (s now : timepoint) (w : timewindow) (q : queue)
    (hnow : ((now - s : Int) : ℚ) < w) :
    q.countP (in_window s w) = (drop_expired now w q).countP (in_window s w) := by
  unfold drop_expired
  nth_rewrite 1 [← List.takeWhile_append_dropWhile
    (fun ts => decide (w ≤ ((now - ts : Int) : ℚ))) q]
  rw [List.countP_append]
  have h0 : (q.takeWhile (fun ts => decide (w ≤ ((now - ts : Int) : ℚ)))).countP (in_window s w)
      = 0 := by
    rw [List.countP_eq_zero]
    intro a ha
    have hp := List.mem_takeWhile_imp ha
    rw [decide_eq_true_eq] at hp
    unfold in_window
    rw [decide_eq_true_eq]
    rintro ⟨h1, _⟩
    have h2 : ((now - a : Int) : ℚ) ≤ ((now - s : Int) : ℚ) := by
      have : now - a ≤ now - s := Int.sub_le_sub_left h1 now
      exact_mod_cast this
    linarith
  rw [h0, Nat.zero_add]

/-- Window bound, for any starting state whose queue respects the limit. -/
theorem window_bound (s : timepoint) (t : event_throttler) (nows : List timepoint)
    (hsorted : nows.Sorted (· ≤ ·)) (h : t.m_queue.length ≤ t.m_limit) :
    (t.m_queue ++ admitted t nows).countP (in_window s t.m_timewindow) ≤ t.m_limit := by
  induction nows generalizing t with
  | nil =>
    simp only [admitted, List.append_nil]
    exact le_trans (List.countP_le_length _) h
  | cons now nows ih =>
    have hs := List.sorted_cons.mp hsorted
    by_cases hnow : ((now - s : Int) : ℚ) < t.m_timewindow
    · have ih1 := ih (t.passthrough now).2 hs.2 (passthrough_queue_length t now h)
      rw [passthrough_snd] at ih1
      simp only at ih1
      rw [List.countP_append, countP_drop_expired s now t.m_timewindow t.m_queue hnow,
        ← List.countP_append]
      unfold admitted
      rw [passthrough_fst, passthrough_snd]
      by_cases hlt : (drop_expired now t.m_timewindow t.m_queue).length < t.m_limit
      · simp only [hlt, decide_True, if_true] at ih1 ⊢
        rw [List.append_assoc] at ih1
        exact ih1
      · simp only [hlt, decide_False, if_false] at ih1 ⊢
        exact ih1
    · have hout : (admitted t (now :: nows)).countP (in_window s t.m_timewindow) = 0 := by
        rw [List.countP_eq_zero]
        intro a ha
        have hmem := admitted_subset t _ a ha
        have hge : now ≤ a := by
          rcases List.mem_cons.mp hmem with h1 | h1
          · exact le_of_eq h1.symm
          · exact hs.1 a h1
        unfold in_window
        rw [decide_eq_true_eq]
        rintro ⟨_, h2⟩
        have h3 : ((now - s : Int) : ℚ) ≤ ((a - s : Int) : ℚ) := by
          have : now - s ≤ a - s := Int.sub_le_sub_right hge s
          exact_mod_cast this
        exact hnow (lt_of_le_of_lt h3 h2)
      rw [List.countP_append, hout, Nat.add_zero]
      exact le_trans (List.countP_le_length _) h

/-- C10. With the clock as the argument `now`: `passthrough()` under the default
strategy returns `true` exactly when fewer than `L` timestamps remain after the
leading timestamps at least `W` old are dropped; it then appends `now`, and
otherwise leaves the remaining queue as it is. For calls at non-decreasing
clock readings on a new throttler the queue never holds more than `L`
timestamps, and every window of length `W` (from `s`, up to but excluding
`s + W`) holds at most `L` admitted calls. -/
theorem passthrough_contract (limit : Int) (W : timewindow) (nows : List timepoint)
    (hsorted : nows.Sorted (· ≤ ·)) :
    (∀ (t : event_throttler) (now : timepoint),
        ((t.passthrough now).1 = true
            ↔ (drop_expired now t.m_timewindow t.m_queue).length < t.m_limit)
          ∧ ((t.passthrough now).1 = true →
              (t.passthrough now).2.m_queue = drop_expired now t.m_timewindow t.m_queue ++ [now])
          ∧ ((t.passthrough now).1 = false →
              (t.passthrough now).2.m_queue = drop_expired now t.m_timewindow t.m_queue)
          ∧ (t.passthrough now).2.m_limit = t.m_limit
          ∧ (t.passthrough now).2.m_timewindow = t.m_timewindow)
      ∧ (run (event_throttler.construct limit W) nows).m_queue.length
          ≤ (event_throttler.construct limit W).m_limit
      ∧ ∀ s : timepoint,
          (admitted (event_throttler.construct limit W) nows).countP (in_window s W)
            ≤ (event_throttler.construct limit W).m_limit := by
  refine ⟨fun t now => ?_, ?_, fun s => ?_⟩
  · rw [passthrough_fst, passthrough_snd]
    refine ⟨decide_eq_true_iff, fun h => ?_, fun h => ?_, rfl, rfl⟩
    · exact if_pos (of_decide_eq_true h)
    · exact if_neg (of_decide_eq_false h)
  · exact run_queue_length _ nows (Nat.zero_le _)
  · have := window_bound s (event_throttler.construct limit W) nows hsorted (Nat.zero_le _)
    simpa [event_throttler.construct] using this

theorem passthrough_contract_witness :
    List.Sorted (· ≤ ·) ([0, 1, 2, 11] : List timepoint)
      ∧ (admitted (event_throttler.construct 2 10) [0, 1, 2, 11]).countP (in_window 0 10)
          ≤ (event_throttler.construct 2 10).m_limit :=
  ⟨by decide, (passthrough_contract 2 10 [0, 1, 2, 11] (by decide)).2.2 0⟩

end throttle_util
end lemonbuddy
